import Mathlib

/-!
Verification of the FlarePie flight-dynamics engine against its specification.

The Python sources are shallowly embedded over `ℚ`.  Machine floats are
modelled as exact rationals; the transcendental library calls
(`math.sqrt`, `x ** y`, `math.exp`) are modelled by an explicit bundle of
operations `TransOps` together with a predicate `Faithful` collecting the
facts about the real functions that the proofs use (non-negativity,
monotonicity, `1 ** e = 1`, ...).  Theorems quantify over any faithful
bundle; the computable bundle `defaultOps` (which satisfies `Faithful`)
is used to evaluate concrete runs.

`math.sqrt` applied to a negative number raises `ValueError` in Python;
the embedding returns `none` there (`engineStep`).  Rational division by
zero yields `0` in the embedding where Python would raise
`ZeroDivisionError`; no theorem below exercises a zero denominator.
-/

/-- The transcendental operations used by the Python sources:
`sqrt x` models `math.sqrt x` (only ever applied to non-negative
arguments), `rpow b e` models `b ** e` for a non-negative base, and
`exp x` models `math.exp x`. -/
structure TransOps where
  sqrt : ℚ → ℚ
  rpow : ℚ → ℚ → ℚ
  exp : ℚ → ℚ

/-- Facts about the real `sqrt`, `**` and `exp` that the development
relies on; any model of the float operations satisfies them on the
domains where the sources apply them. -/
structure Faithful (ops : TransOps) : Prop where
  sqrt_nonneg : ∀ x : ℚ, 0 ≤ ops.sqrt x
  rpow_nonneg : ∀ b e : ℚ, 0 ≤ b → 0 ≤ ops.rpow b e
  rpow_one_base : ∀ e : ℚ, ops.rpow 1 e = 1
  rpow_mono : ∀ e b₁ b₂ : ℚ, 0 < e → 0 ≤ b₁ → b₁ ≤ b₂ →
    ops.rpow b₁ e ≤ ops.rpow b₂ e
  rpow_lt : ∀ e b₁ b₂ : ℚ, 0 < e → 0 ≤ b₁ → b₁ < b₂ →
    ops.rpow b₁ e < ops.rpow b₂ e
  exp_pos : ∀ x : ℚ, 0 < ops.exp x

/-- A computable bundle of operations satisfying `Faithful`, used to run
the embedded programs on concrete inputs. -/
def defaultOps : TransOps where
  sqrt := fun x => max 0 x
  rpow := fun b _ => b
  exp := fun _ => 1

theorem faithful_defaultOps : Faithful defaultOps where
  sqrt_nonneg := fun x => le_max_left 0 x
  rpow_nonneg := fun _ _ hb => hb
  rpow_one_base := fun _ => rfl
  rpow_mono := fun _ _ _ _ _ h => h
  rpow_lt := fun _ _ _ _ _ h => h
  exp_pos := fun _ => one_pos

/-- Embedding of `Engine.get_atmospheric_pressure` (also imported and
used by the GUI loop and the multi-stage scheduler). -/
def pressure (ops : TransOps) (altitude : ℚ) : ℚ :=
  let a := max 0 altitude
  let base := max 0 (1 - (225577 / 10000000000 : ℚ) * a)
  let p := if base = 0 then 0 else 101325 * ops.rpow base (525588 / 100000)
  max p 0

theorem pressure_at_zero (ops : TransOps) (hF : Faithful ops) :
    pressure ops 0 = 101325 := by
  have h1 : max (0 : ℚ) 0 = 0 := by norm_num
  simp only [pressure, h1]
  norm_num [hF.rpow_one_base]

theorem pressure_nonneg (ops : TransOps) (h : ℚ) : 0 ≤ pressure ops h :=
  le_max_right _ 0

theorem pressure_le (ops : TransOps) (hF : Faithful ops) (h : ℚ) :
    pressure ops h ≤ 101325 := by
  simp only [pressure]
  set a := max 0 h with ha
  set base := max 0 (1 - (225577 / 10000000000 : ℚ) * a) with hbase
  have hb0 : 0 ≤ base := le_max_left _ _
  have hb1 : base ≤ 1 := by
    have hA : 0 ≤ a := le_max_left _ _
    have : (1 - (225577 / 10000000000 : ℚ) * a) ≤ 1 := by
      have : 0 ≤ (225577 / 10000000000 : ℚ) * a := by positivity
      linarith
    exact max_le (by norm_num) this
  by_cases hz : base = 0
  · simp [hz]
  · have hr : ops.rpow base (525588 / 100000) ≤ 1 := by
      have := hF.rpow_mono (525588 / 100000) base 1 (by norm_num) hb0 hb1
      rwa [hF.rpow_one_base] at this
    have hrn : 0 ≤ ops.rpow base (525588 / 100000) :=
      hF.rpow_nonneg _ _ hb0
    simp only [hz, if_false]
    have : (101325 : ℚ) * ops.rpow base (525588 / 100000) ≤ 101325 := by
      nlinarith
    exact max_le this (by norm_num)

theorem pressure_antitone (ops : TransOps) (hF : Faithful ops)
    (h₁ h₂ : ℚ) (hle : h₁ ≤ h₂) : pressure ops h₂ ≤ pressure ops h₁ := by
  simp only [pressure]
  set a₁ := max 0 h₁ with ha1
  set a₂ := max 0 h₂ with ha2
  have haa : a₁ ≤ a₂ := max_le_max le_rfl hle
  have ha1n : 0 ≤ a₁ := le_max_left _ _
  set b₁ := max 0 (1 - (225577 / 10000000000 : ℚ) * a₁) with hb1
  set b₂ := max 0 (1 - (225577 / 10000000000 : ℚ) * a₂) with hb2
  have hb0₁ : 0 ≤ b₁ := le_max_left _ _
  have hb0₂ : 0 ≤ b₂ := le_max_left _ _
  have hbb : b₂ ≤ b₁ := by
    apply max_le (le_max_left _ _)
    have : (1 - (225577 / 10000000000 : ℚ) * a₂) ≤
        (1 - (225577 / 10000000000 : ℚ) * a₁) := by
      have : (225577 / 10000000000 : ℚ) * a₁ ≤
          (225577 / 10000000000 : ℚ) * a₂ := by
        apply mul_le_mul_of_nonneg_left haa (by norm_num)
      linarith
    exact this.trans (le_max_right _ _)
  by_cases hz₂ : b₂ = 0
  · simp only [hz₂, if_true]
    exact le_trans (by norm_num) (le_max_right _ 0)
  · have hz₁ : ¬ b₁ = 0 := by
      intro h0
      exact hz₂ (le_antisymm (h0 ▸ hbb) hb0₂)
    simp only [hz₁, hz₂, if_false]
    have hr : ops.rpow b₂ (525588 / 100000) ≤ ops.rpow b₁ (525588 / 100000) :=
      hF.rpow_mono _ _ _ (by norm_num) hb0₂ hbb
    have := mul_le_mul_of_nonneg_left hr (by norm_num : (0:ℚ) ≤ 101325)
    exact max_le_max this le_rfl

/-- Above `10^10 / 225577 ≈ 44330.794 m` the clamped base hits `0` and
the model returns exactly `0`. -/
theorem pressure_eq_zero_of_ge (ops : TransOps) (h : ℚ)
    (hh : (10000000000 : ℚ) / 225577 ≤ h) : pressure ops h = 0 := by
  have ha : max 0 h = h := by
    apply max_eq_right
    exact le_trans (by norm_num) hh
  have hb : max 0 (1 - (225577 / 10000000000 : ℚ) * h) = 0 := by
    apply max_eq_left
    have : (1 : ℚ) ≤ (225577 / 10000000000 : ℚ) * h := by
      have := mul_le_mul_of_nonneg_left hh
        (by norm_num : (0:ℚ) ≤ 225577 / 10000000000)
      calc (1 : ℚ) = (225577 / 10000000000 : ℚ) * ((10000000000 : ℚ) / 225577) := by
            norm_num
        _ ≤ _ := this
    linarith
  simp [pressure, ha, hb]

/-- Embedding of `Engine.calculate_drag`.  The `OverflowError` guard in
the source can only fire for astronomically negative altitudes of the
float `exp`; the rational `ops.exp` is total, so that branch is dropped. -/
def calculateDrag (ops : TransOps) (velocity altitude referenceArea : ℚ) : ℚ :=
  let density := if altitude > 1000000 then 0
    else (49 / 40 : ℚ) * ops.exp (-altitude / 8500)
  let sos := 340 * ops.sqrt (pressure ops altitude / 101325)
  let mach := |velocity| / max sos (1 / 10)
  let cd := if mach < 4 / 5 then (3 / 10 : ℚ)
    else if mach < 11 / 10 then 3 / 10 + (mach - 4 / 5) * 1
    else 3 / 5 - (1 / 10) * min (mach - 11 / 10) (2 / 5)
  let d := (1 / 2 : ℚ) * density * velocity ^ 2 * referenceArea * cd
  if velocity > 0 then d else -d

/-- The hard-coded fuel table shared by `Engine.rocket_simulation` and
the GUI loop: fuel identifier to `(k, R)`. -/
def fuelProps (fuelType : String) : Option (ℚ × ℚ) :=
  if fuelType = "RP1" then some (6 / 5, 287)
  else if fuelType = "LH2" then some (7 / 5, 4124)
  else if fuelType = "SRF" then some (6 / 5, 191)
  else if fuelType = "N2O4" then some (63 / 50, 320)
  else none

/-- `advanced_engine.AdvancedRocketEngine._get_fuel_properties`:
`dict.get` with the default `(1.2, 287.0)` — unknown fuels silently get
RP1's parameters. -/
def advGetFuelProperties (fuelType : String) : ℚ × ℚ :=
  (fuelProps fuelType).getD (6 / 5, 287)

/-- Per-run constants of `Engine.rocket_simulation`'s loop. -/
structure EngParams where
  k : ℚ
  R : ℚ
  cocp : ℚ
  ct : ℚ
  mfr : ℚ
  dt : ℚ
  refArea : ℚ

/-- Loop state of `Engine.rocket_simulation`. -/
structure EngState where
  propmass : ℚ
  mass : ℚ
  time : ℚ
  vel : ℚ
  alt : ℚ
  deltaV : ℚ
  lastReturn : ℚ

/-- The ten per-sample quantities appended on one accepted step. -/
structure EngSample where
  time : ℚ
  thrust : ℚ
  fuel : ℚ
  massFlow : ℚ
  vel : ℚ
  alt : ℚ
  isp : ℚ
  energy : ℚ
  drag : ℚ
  accel : ℚ

/-- The ten per-sample arrays accumulated by the loop. -/
structure EngAcc where
  time : List ℚ
  thrust : List ℚ
  fuel : List ℚ
  massFlow : List ℚ
  vel : List ℚ
  alt : List ℚ
  isp : List ℚ
  energy : List ℚ
  drag : List ℚ
  accel : List ℚ

def emptyAcc : EngAcc := ⟨[], [], [], [], [], [], [], [], [], []⟩

def pushAcc (acc : EngAcc) (s : EngSample) : EngAcc :=
  ⟨acc.time ++ [s.time], acc.thrust ++ [s.thrust], acc.fuel ++ [s.fuel],
   acc.massFlow ++ [s.massFlow], acc.vel ++ [s.vel], acc.alt ++ [s.alt],
   acc.isp ++ [s.isp], acc.energy ++ [s.energy], acc.drag ++ [s.drag],
   acc.accel ++ [s.accel]⟩

/-- The radicand `2k/(k-1) * R * Tc * (1 - pr)` of
`Engine.rocket_simulation` line 90 (not clamped in the source). -/
def engRad (ops : TransOps) (P : EngParams) (st : EngState) : ℚ :=
  let ap := pressure ops st.alt
  let pr := if P.cocp > 0 then ops.rpow (ap / P.cocp) ((P.k - 1) / P.k) else 0
  (2 * P.k) / (P.k - 1) * P.R * P.ct * (1 - pr)

/-- One iteration body of `Engine.rocket_simulation` (lines 87-138),
assuming the radicand is non-negative. -/
def engAdvance (ops : TransOps) (P : EngParams) (st : EngState) :
    EngState × EngSample :=
  let ve := ops.sqrt (engRad ops P st)
  let thrust := P.mfr * ve
  let massUsed := min (P.mfr * P.dt) st.propmass
  let propmass' := st.propmass - massUsed
  let mass' := st.mass - massUsed
  let d := calculateDrag ops st.vel st.alt P.refArea
  let accel := thrust / mass' - 981 / 100 - d / mass'
  let vMid := st.vel + (1 / 2) * accel * P.dt
  let aMid := st.alt + (1 / 2) * st.vel * P.dt
  let dMid := calculateDrag ops vMid aMid P.refArea
  let accelMid := thrust / mass' - 981 / 100 - dMid / mass'
  let vNew := st.vel + accelMid * P.dt
  let aNew := st.alt + vMid * P.dt
  let dvStep := max 0 (vNew - st.vel)
  let ke := (1 / 2 : ℚ) * mass' * st.vel ^ 2
  let pe := mass' * (981 / 100) * st.alt
  let isp := if P.mfr > 0 then thrust / (P.mfr * (981 / 100)) else 0
  (⟨propmass', mass', st.time + P.dt, vNew, aNew, st.deltaV + dvStep,
    st.lastReturn⟩,
   ⟨st.time, thrust, propmass', P.mfr, st.vel, st.alt, isp, ke + pe, d, accel⟩)

/-- One step of `Engine.rocket_simulation`; `none` models the
`ValueError` raised by `math.sqrt` on a negative radicand. -/
def engineStep (ops : TransOps) (P : EngParams) (st : EngState) :
    Option (EngState × EngSample) :=
  if engRad ops P st < 0 then none else some (engAdvance ops P st)

/-- The `while` guard of `Engine.rocket_simulation` line 86. -/
def engGuard (mt : Option ℚ) (st : EngState) : Prop :=
  0 < st.propmass ∧ match mt with | none => True | some m => st.time < m

instance (mt : Option ℚ) (st : EngState) : Decidable (engGuard mt st) := by
  unfold engGuard
  cases mt <;> simp <;> infer_instance

/-- Outcome of the `Engine.rocket_simulation` loop: the `ValueError`
escape, or fall-through/return with the final state, arrays, and
`simulation_complete` flag. -/
inductive EngLoopOut where
  | sqrtErr : EngLoopOut
  | done : EngState → EngAcc → Bool → EngLoopOut

/-- The loop of `Engine.rocket_simulation`, fuelled: `none` means the
fuel ran out with the guard still true (the source would keep looping). -/
def engineLoop (ops : TransOps) (P : EngParams) (mt : Option ℚ)
    (rt : Bool) : ℕ → EngState → EngAcc → Option EngLoopOut
  | 0, st, acc => if engGuard mt st then none else some (.done st acc true)
  | n + 1, st, acc =>
    if engGuard mt st then
      match engineStep ops P st with
      | none => some .sqrtErr
      | some (st', smp) =>
        let acc' := pushAcc acc smp
        if rt = true ∧ (1 / 4 : ℚ) ≤ st'.time - st'.lastReturn then
          some (.done { st' with lastReturn := st'.time } acc' false)
        else
          engineLoop ops P mt rt n st' acc'
    else some (.done st acc true)

/-- The result dictionary of `Engine.rocket_simulation`. -/
structure EngData where
  time : List ℚ
  thrust : List ℚ
  fuel : List ℚ
  massFlow : List ℚ
  vel : List ℚ
  alt : List ℚ
  isp : List ℚ
  energy : List ℚ
  drag : List ℚ
  accel : List ℚ
  finalTime : ℚ
  initialThrust : ℚ
  deltaV : ℚ
  complete : Bool
deriving DecidableEq

inductive EngResult where
  | invalidFuel : EngResult
  | sqrtDomainError : EngResult
  | ok : EngData → EngResult
deriving DecidableEq

def mkEngData (st : EngState) (acc : EngAcc) (complete : Bool) : EngData :=
  ⟨acc.time, acc.thrust, acc.fuel, acc.massFlow, acc.vel, acc.alt, acc.isp,
   acc.energy, acc.drag, acc.accel, st.time, acc.thrust.headD 0, st.deltaV,
   complete⟩

/-- Embedding of `Engine.rocket_simulation`, fuelled by `n`. -/
def engineSim (ops : TransOps) (fuelType : String)
    (cocp ct altitude intmass propmass mfr dt referenceArea : ℚ)
    (realTimeMode : Bool) (maxTime : Option ℚ) (n : ℕ) :
    Option EngResult :=
  match fuelProps fuelType with
  | none => some .invalidFuel
  | some (k, R) =>
    (engineLoop ops ⟨k, R, cocp, ct, mfr, dt, referenceArea⟩ maxTime
        realTimeMode n ⟨propmass, intmass, 0, 0, altitude, 0, 0⟩
        emptyAcc).map
      fun out => match out with
        | .sqrtErr => .sqrtDomainError
        | .done st acc c => .ok (mkEngData st acc c)

/-- Projection of a simulation outcome to its data, defaulting to an
empty record for the error outcomes (which carry no arrays). -/
def dataOf (o : Option EngResult) : EngData :=
  match o with
  | some (.ok r) => r
  | _ => ⟨[], [], [], [], [], [], [], [], [], [], 0, 0, 0, true⟩

def isOkB (o : Option EngResult) : Bool :=
  match o with
  | some (.ok _) => true
  | _ => false

/-- Per-run constants of the inline loop in
`Flarepie.FlarePieApp.run_rocket_simulation` (src/Flarepie.py 621-704). -/
structure FlParams where
  k : ℚ
  R : ℚ
  cocp : ℚ
  ct : ℚ
  dt : ℚ
  refArea : ℚ
  enableFailure : Bool
  failureTime : Option ℚ
  enableAbort : Bool
  abortTime : Option ℚ
  pArea : ℚ
  pCd : ℚ

/-- Loop state of the GUI loop; `mfr` is mutable there (forced to `0`
after failure or abort), so it lives in the state. -/
structure FlState where
  propmass : ℚ
  mass : ℚ
  mfr : ℚ
  time : ℚ
  vel : ℚ
  alt : ℚ
  deltaV : ℚ
  failIdx : Option ℕ
  abortIdx : Option ℕ
  abortTriggered : Bool
  iters : ℕ

/-- The parachute drag expression used by the GUI loop once abort has
triggered (lines 663-667 and 673-675). -/
def parachuteDrag (ops : TransOps) (pArea pCd v h : ℚ) : ℚ :=
  (1 / 2 : ℚ) * ((49 / 40 : ℚ) * ops.exp (-h / 8500)) * v ^ 2 * pArea * pCd *
    (if v > 0 then -1 else 1)

def failCond (P : FlParams) (t : ℚ) : Bool :=
  P.enableFailure && match P.failureTime with
    | some ft => decide (ft ≤ t)
    | none => false

def abortCond (P : FlParams) (t : ℚ) : Bool :=
  P.enableAbort && match P.abortTime with
    | some ta => decide (ta ≤ t)
    | none => false

/-- One iteration body of the GUI loop (lines 644-699); `idx` is
`len(time_steps)` at entry, used for the failure/abort event indices.
The `max(0.0, ve) ** 0.5` clamp of line 647 makes this step total. -/
def flAdvance (ops : TransOps) (P : FlParams) (st : FlState) (idx : ℕ) :
    FlState × EngSample :=
  let ap := pressure ops st.alt
  let pr := if P.cocp > 0 then ops.rpow (ap / P.cocp) ((P.k - 1) / P.k) else 0
  let ve0 := (2 * P.k) / (P.k - 1) * P.R * P.ct * (1 - pr)
  let ve := ops.rpow (max 0 ve0) (1 / 2)
  let thrust0 := st.mfr * ve
  let f := failCond P st.time
  let thrust1 := if f = true then 0 else thrust0
  let mfr1 := if f = true then 0 else st.mfr
  let fIdx := if f = true then (match st.failIdx with
    | none => some idx
    | some i => some i) else st.failIdx
  let a := abortCond P st.time
  let thrust2 := if a = true then 0 else thrust1
  let mfr2 := if a = true then 0 else mfr1
  let aIdx := if a = true then (match st.abortIdx with
    | none => some idx
    | some i => some i) else st.abortIdx
  let aTrig := if a = true then (match st.abortIdx with
    | none => true
    | some _ => st.abortTriggered) else st.abortTriggered
  let massUsed := min (mfr2 * P.dt) st.propmass
  let propmass' := st.propmass - massUsed
  let mass' := st.mass - massUsed
  let d := if aTrig then parachuteDrag ops P.pArea P.pCd st.vel st.alt
    else calculateDrag ops st.vel st.alt P.refArea
  let accel := thrust2 / mass' - 981 / 100 - d / mass'
  let vMid := st.vel + (1 / 2) * accel * P.dt
  let aMid := st.alt + (1 / 2) * st.vel * P.dt
  let dMid := if aTrig then parachuteDrag ops P.pArea P.pCd vMid aMid
    else calculateDrag ops vMid aMid P.refArea
  let accelMid := thrust2 / mass' - 981 / 100 - dMid / mass'
  let vNew := st.vel + accelMid * P.dt
  let aNew := st.alt + vMid * P.dt
  let dvStep := max 0 (vNew - st.vel)
  let ke := (1 / 2 : ℚ) * mass' * st.vel ^ 2
  let pe := mass' * (981 / 100) * st.alt
  let isp := if mfr2 > 0 then thrust2 / (mfr2 * (981 / 100)) else 0
  (⟨propmass', mass', mfr2, st.time + P.dt, vNew, aNew, st.deltaV + dvStep,
    fIdx, aIdx, aTrig, st.iters + 1⟩,
   ⟨st.time, thrust2, propmass', mfr2, st.vel, st.alt, isp, ke + pe, d, accel⟩)

/-- The `while` guard of the GUI loop (line 643):
`(propmass > 0 or (abort_triggered and altitude > 0.5 and |v| > 0.5))
and time < 10000 and iterations < 200000`. -/
def flGuard (st : FlState) : Prop :=
  (0 < st.propmass ∨
    (st.abortTriggered = true ∧ (1 / 2 : ℚ) < st.alt ∧ (1 / 2 : ℚ) < |st.vel|))
  ∧ st.time < 10000 ∧ st.iters < 200000

instance (st : FlState) : Decidable (flGuard st) := by
  unfold flGuard
  infer_instance

/-- The GUI loop, fuelled.  A `some (st, acc)` is the loop exiting —
either through the guard or through one of the two `break`s at lines
700-704; `none` means the fuel ran out with the guard still true. -/
def flLoop (ops : TransOps) (P : FlParams) :
    ℕ → FlState → EngAcc → Option (FlState × EngAcc)
  | 0, st, acc => if flGuard st then none else some (st, acc)
  | n + 1, st, acc =>
    if flGuard st then
      let p := flAdvance ops P st acc.time.length
      let acc' := pushAcc acc p.2
      if p.1.abortTriggered = true ∧ p.1.alt ≤ 0 then some (p.1, acc')
      else if p.2.thrust = 0 ∧ p.1.propmass ≤ 0 ∧ ¬ p.1.abortTriggered = true
        then some (p.1, acc')
      else flLoop ops P n p.1 acc'
    else some (st, acc)

/-- Result of the GUI run: the arrays plus the extra
`failure_event_idx` / `abort_event_idx` fields;
`simulation_complete` is literally `True` at line 719. -/
structure FlData where
  time : List ℚ
  thrust : List ℚ
  fuel : List ℚ
  massFlow : List ℚ
  vel : List ℚ
  alt : List ℚ
  isp : List ℚ
  energy : List ℚ
  drag : List ℚ
  accel : List ℚ
  finalTime : ℚ
  initialThrust : ℚ
  deltaV : ℚ
  complete : Bool
  failureEventIdx : Option ℕ
  abortEventIdx : Option ℕ

inductive FlResult where
  | invalidFuel : FlResult
  | ok : FlData → FlResult

/-- Embedding of the GUI `run_rocket_simulation` (fuel-type check at
line 614, then the inline loop, then the result dict at 705-722). -/
def flSim (ops : TransOps) (fuelType : String)
    (cocp ct altitude intmass propmass mfr dt referenceArea : ℚ)
    (enableFailure : Bool) (failureTime : Option ℚ) (enableAbort : Bool)
    (abortTime : Option ℚ) (pArea pCd : ℚ) (n : ℕ) : Option FlResult :=
  match fuelProps fuelType with
  | none => some .invalidFuel
  | some (k, R) =>
    (flLoop ops ⟨k, R, cocp, ct, dt, referenceArea, enableFailure,
        failureTime, enableAbort, abortTime, pArea, pCd⟩ n
        ⟨propmass, intmass, mfr, 0, 0, altitude, 0, none, none, false, 0⟩
        emptyAcc).map
      fun p => .ok ⟨p.2.time, p.2.thrust, p.2.fuel, p.2.massFlow, p.2.vel,
        p.2.alt, p.2.isp, p.2.energy, p.2.drag, p.2.accel, p.1.time,
        p.2.thrust.headD 0, p.1.deltaV, true, p.1.failIdx, p.1.abortIdx⟩

def flCompleteOf (o : Option FlResult) : Bool :=
  match o with
  | some (.ok d) => d.complete
  | _ => true

/-- A stage of `advanced_engine.AdvancedRocketEngine`. -/
structure MStage where
  fuelType : String
  cocp : ℚ
  ct : ℚ
  totalMass : ℚ
  propMass : ℚ
  mfr : ℚ
  refArea : ℚ
  sepAlt : Option ℚ
  sepTime : Option ℚ
  fairingMass : ℚ
  fairingSepAlt : Option ℚ

/-- Python truthiness test `x and v >= x` for an optional float trigger:
`None` and `0.0` are both falsy. -/
def truthyGE (v : ℚ) (o : Option ℚ) : Bool :=
  match o with
  | none => false
  | some a => !(decide (a = 0)) && decide (a ≤ v)

inductive MEventType where
  | stageSeparation : MEventType
  | fairingSeparation : MEventType
  | stageDepletion : MEventType
  | missionComplete : MEventType
deriving DecidableEq

structure MEvent where
  typ : MEventType
  time : ℚ

/-- State of `multi_stage_simulation`: the mission-wide kinematics plus
the mutable per-stage propellant and fairing masses and the cursor. -/
structure MState where
  time : ℚ
  alt : ℚ
  vel : ℚ
  mass : ℚ
  cursor : ℕ
  props : List ℚ
  fairings : List ℚ

structure MAcc where
  time : List ℚ
  alt : List ℚ
  vel : List ℚ
  mass : List ℚ
  thrust : List ℚ
  stage : List ℕ
  events : List MEvent

/-- `advanced_engine._calculate_drag` — like `Engine.calculate_drag`
but without the `1e6` altitude cutoff or overflow guard. -/
def mCalcDrag (ops : TransOps) (velocity altitude referenceArea : ℚ) : ℚ :=
  let density := (49 / 40 : ℚ) * ops.exp (-altitude / 8500)
  let sos := 340 * ops.sqrt (pressure ops altitude / 101325)
  let mach := |velocity| / max sos (1 / 10)
  let cd := if mach < 4 / 5 then (3 / 10 : ℚ)
    else if mach < 11 / 10 then 3 / 10 + (mach - 4 / 5) * 1
    else 3 / 5 - (1 / 10) * min (mach - 11 / 10) (2 / 5)
  let d := (1 / 2 : ℚ) * density * velocity ^ 2 * referenceArea * cd
  if velocity > 0 then d else -d

/-- `advanced_engine._rk4_integration`: all four velocity slopes equal
`a*dt`, so it is a constant-acceleration update. -/
def mRk4 (v h a dt : ℚ) : ℚ × ℚ :=
  let k1v := a * dt
  let k1h := v * dt
  let k2v := a * dt
  let k2h := (v + (1 / 2) * k1v) * dt
  let k3v := a * dt
  let k3h := (v + (1 / 2) * k2v) * dt
  let k4v := a * dt
  let k4h := (v + k3v) * dt
  (v + (k1v + 2 * k2v + 2 * k3v + k4v) / 6,
   h + (k1h + 2 * k2h + 2 * k3h + k4h) / 6)

inductive MTickOut where
  | cont : MState → MAcc → MTickOut
  | halt : MState → MAcc → MTickOut
  | err : MTickOut

/-- One iteration of the `multi_stage_simulation` `while` body
(advanced_engine.py 66-147).  `.cont` is a normal iteration or a
`continue`; `.halt` the `mission_complete` `break`; `.err` the
`ValueError` from the unclamped `math.sqrt` at line 103. -/
def mTick (ops : TransOps) (stages : List MStage) (flows : List ℚ)
    (dt : ℚ) (st : MState) (acc : MAcc) : MTickOut :=
  let nStages := stages.length
  -- block 1: separation trigger (lines 67-80)
  let stg := stages.getD st.cursor
    ⟨"RP1", 0, 0, 0, 0, 0, 0, none, none, 0, none⟩
  if st.cursor < nStages ∧
      (truthyGE st.alt stg.sepAlt = true ∨ truthyGE st.time stg.sepTime = true)
  then
    .cont { st with cursor := st.cursor + 1 }
      { acc with events := acc.events ++ [⟨.stageSeparation, st.time⟩] }
  else
    -- block 2: fairing jettison (lines 82-95)
    let fm := st.fairings.getD st.cursor 0
    let doFairing : Bool := decide (st.cursor < nStages) &&
      truthyGE st.alt stg.fairingSepAlt && decide (0 < fm)
    let st1 := if doFairing = true then
        { st with mass := st.mass - fm,
                  fairings := st.fairings.set st.cursor 0 }
      else st
    let acc1 := if doFairing = true then
        { acc with events := acc.events ++ [⟨.fairingSeparation, st.time⟩] }
      else acc
    -- block 3: propulsion and depletion (lines 97-128)
    if st1.cursor < nStages then
      let ap := pressure ops st1.alt
      let kR := advGetFuelProperties stg.fuelType
      let pr := if stg.cocp > 0 then
          ops.rpow (ap / stg.cocp) ((kR.1 - 1) / kR.1) else 0
      let rad := (2 * kR.1) / (kR.1 - 1) * kR.2 * stg.ct * (1 - pr)
      if rad < 0 then .err
      else
        let ve := ops.sqrt rad
        let flow := flows.getD st1.cursor 0
        let thrust := flow * ve
        let massUsed := min (flow * dt) (st1.props.getD st1.cursor 0)
        let props' := st1.props.set st1.cursor
          (st1.props.getD st1.cursor 0 - massUsed)
        let mass' := st1.mass - massUsed
        if props'.getD st1.cursor 0 ≤ 0 then
          .cont { st1 with cursor := st1.cursor + 1, props := props',
                           mass := mass' }
            { acc1 with events := acc1.events ++ [⟨.stageDepletion, st1.time⟩] }
        else
          -- integration and sample recording (lines 130-147)
          let d := mCalcDrag ops st1.vel st1.alt stg.refArea
          let accel := thrust / mass' - 981 / 100 - d / mass'
          let vh := mRk4 st1.vel st1.alt accel dt
          .cont { st1 with vel := vh.1, alt := vh.2, time := st1.time + dt,
                           props := props', mass := mass' }
            { acc1 with time := acc1.time ++ [st1.time],
                        alt := acc1.alt ++ [st1.alt],
                        vel := acc1.vel ++ [st1.vel],
                        mass := acc1.mass ++ [mass'],
                        thrust := acc1.thrust ++ [thrust],
                        stage := acc1.stage ++ [st1.cursor] }
    else
      .halt st1 { acc1 with events := acc1.events ++ [⟨.missionComplete, st1.time⟩] }

/-- `max_time or float('inf')` — `None` and `0.0` both give no bound. -/
def mBound (mt : Option ℚ) : Option ℚ :=
  match mt with
  | none => none
  | some m => if m = 0 then none else some m

def mGuard (b : Option ℚ) (st : MState) : Prop :=
  match b with
  | none => True
  | some m => st.time < m

instance (b : Option ℚ) (st : MState) : Decidable (mGuard b st) :=
  match b with
  | none => .isTrue trivial
  | some _ => inferInstanceAs (Decidable (_ < _))

inductive MLoopOut where
  | err : MLoopOut
  | done : MState → MAcc → MLoopOut

def mLoop (ops : TransOps) (stages : List MStage) (flows : List ℚ)
    (dt : ℚ) (b : Option ℚ) : ℕ → MState → MAcc → Option MLoopOut
  | 0, st, acc => if mGuard b st then none else some (.done st acc)
  | n + 1, st, acc =>
    if mGuard b st then
      match mTick ops stages flows dt st acc with
      | .err => some .err
      | .halt st' acc' => some (.done st' acc')
      | .cont st' acc' => mLoop ops stages flows dt b n st' acc'
    else some (.done st acc)

structure MData where
  time : List ℚ
  alt : List ℚ
  vel : List ℚ
  mass : List ℚ
  thrust : List ℚ
  stage : List ℕ
  events : List MEvent
  finalTime : ℚ
  maxAlt : ℚ
  maxVel : ℚ

inductive MsResult where
  | err : MsResult
  | ok : MData → MsResult

def listMax : List ℚ → ℚ
  | [] => 0
  | x :: xs => xs.foldl max x

/-- Embedding of `AdvancedRocketEngine.multi_stage_simulation` for a
fresh engine (cursor `0`), fuelled by `n`. -/
def multiStage (ops : TransOps) (stages : List MStage) (dt : ℚ)
    (mt : Option ℚ) (n : ℕ) : Option MsResult :=
  if stages.isEmpty then some .err
  else
    (mLoop ops stages (stages.map (·.mfr)) dt (mBound mt) n
        ⟨0, 0, 0, (stages.map (·.totalMass)).sum, 0,
         stages.map (·.propMass), stages.map (·.fairingMass)⟩
        ⟨[], [], [], [], [], [], []⟩).map
      fun out => match out with
        | .err => .err
        | .done st acc => .ok ⟨acc.time, acc.alt, acc.vel, acc.mass,
            acc.thrust, acc.stage, acc.events, st.time, listMax acc.alt,
            listMax acc.vel⟩

def msMassOf (o : Option MsResult) : List ℚ :=
  match o with
  | some (.ok d) => d.mass
  | _ => []

def msSampleCount (o : Option MsResult) : Option ℕ :=
  match o with
  | some (.ok d) => some d.time.length
  | _ => none

theorem engAdvance_fst_propmass (ops : TransOps) (P : EngParams)
    (st : EngState) : (engAdvance ops P st).1.propmass =
    st.propmass - min (P.mfr * P.dt) st.propmass := rfl

theorem engAdvance_fst_mass (ops : TransOps) (P : EngParams)
    (st : EngState) : (engAdvance ops P st).1.mass =
    st.mass - min (P.mfr * P.dt) st.propmass := rfl

theorem engAdvance_fst_time (ops : TransOps) (P : EngParams)
    (st : EngState) : (engAdvance ops P st).1.time = st.time + P.dt := rfl

theorem engAdvance_fst_lastReturn (ops : TransOps) (P : EngParams)
    (st : EngState) : (engAdvance ops P st).1.lastReturn = st.lastReturn := rfl

theorem engAdvance_snd_time (ops : TransOps) (P : EngParams)
    (st : EngState) : (engAdvance ops P st).2.time = st.time := rfl

theorem engAdvance_snd_fuel (ops : TransOps) (P : EngParams)
    (st : EngState) : (engAdvance ops P st).2.fuel =
    st.propmass - min (P.mfr * P.dt) st.propmass := rfl

theorem flAdvance_fst_iters (ops : TransOps) (P : FlParams) (st : FlState)
    (idx : ℕ) : (flAdvance ops P st idx).1.iters = st.iters + 1 := rfl

theorem flAdvance_fst_time (ops : TransOps) (P : FlParams) (st : FlState)
    (idx : ℕ) : (flAdvance ops P st idx).1.time = st.time + P.dt := rfl

/-- C6, claim as stated, third conjunct refuted: at `h = 44330.5 > 44330`
the baseline atmosphere model returns a strictly positive pressure (the
clamped base `1 - 2.25577e-5*h` only reaches `0` at `h = 10^10/225577 ≈
44330.794`), exhibited with the faithful bundle `defaultOps`. -/
theorem C6_pressure_counterexample :
    Faithful defaultOps ∧ (44330 : ℚ) < 88661 / 2 ∧
    pressure defaultOps ((88661 : ℚ) / 2) ≠ 0 :=
  ⟨faithful_defaultOps, by norm_num, by norm_num [pressure, defaultOps]⟩

/-- C6 (amended): `pressure(0) = 101325` exactly, `pressure` is
non-increasing in altitude over `[0, 44330]`, and `pressure(h) = 0` for
every `h ≥ 10^10/225577 ≈ 44330.794` (rather than for every
`h > 44330`). -/
theorem C6_pressure_spec (ops : TransOps) (hF : Faithful ops) :
    pressure ops 0 = 101325 ∧
    (∀ h₁ h₂ : ℚ, 0 ≤ h₁ → h₁ ≤ h₂ → h₂ ≤ 44330 →
      pressure ops h₂ ≤ pressure ops h₁) ∧
    (∀ h : ℚ, (10000000000 : ℚ) / 225577 ≤ h → pressure ops h = 0) := by
  refine ⟨pressure_at_zero ops hF, ?_, ?_⟩
  · intro h₁ h₂ _ hle _
    exact pressure_antitone ops hF h₁ h₂ hle
  · intro h hh
    exact pressure_eq_zero_of_ge ops h hh

theorem C6_pressure_spec_witness :
    Faithful defaultOps ∧
    (pressure defaultOps 0 = 101325 ∧
    (∀ h₁ h₂ : ℚ, 0 ≤ h₁ → h₁ ≤ h₂ → h₂ ≤ 44330 →
      pressure defaultOps h₂ ≤ pressure defaultOps h₁) ∧
    (∀ h : ℚ, (10000000000 : ℚ) / 225577 ≤ h → pressure defaultOps h = 0)) :=
  ⟨faithful_defaultOps, C6_pressure_spec defaultOps faithful_defaultOps⟩

/-- C1: `Engine.rocket_simulation` does NOT clamp the radicand (line
90); at chamber pressure `50 kPa < 101325 Pa` sea-level ambient the
pressure ratio exceeds `1`, the radicand is negative, and `math.sqrt`
raises `ValueError` instead of producing `ve = 0`.  This holds for every
faithful interpretation of the float power function. -/
theorem C1_no_radicand_clamp (ops : TransOps) (hF : Faithful ops) :
    engineSim ops "RP1" 50000 3500 0 10000 8000 250 1 1 false none 1 =
      some .sqrtDomainError := by
  have hap : pressure ops 0 = 101325 := pressure_at_zero ops hF
  have hpr : (1 : ℚ) <
      ops.rpow ((101325 : ℚ) / 50000) (((6 / 5 : ℚ) - 1) / (6 / 5)) := by
    have h := hF.rpow_lt (((6 / 5 : ℚ) - 1) / (6 / 5)) 1 ((101325 : ℚ) / 50000)
      (by norm_num) (by norm_num) (by norm_num)
    rwa [hF.rpow_one_base] at h
  have hrad : engRad ops ⟨6 / 5, 287, 50000, 3500, 250, 1, 1⟩
      ⟨8000, 10000, 0, 0, 0, 0, 0⟩ < 0 := by
    simp only [engRad, hap]
    norm_num
    nlinarith [hpr]
  have hstep : engineStep ops ⟨6 / 5, 287, 50000, 3500, 250, 1, 1⟩
      ⟨8000, 10000, 0, 0, 0, 0, 0⟩ = none := by
    simp [engineStep, hrad]
  have hg : engGuard none ⟨8000, 10000, 0, 0, 0, 0, 0⟩ := by
    constructor
    · norm_num
    · trivial
  simp [engineSim, fuelProps, engineLoop, hg, hstep]

theorem C1_no_radicand_clamp_witness :
    Faithful defaultOps ∧
    engineSim defaultOps "RP1" 50000 3500 0 10000 8000 250 1 1 false
      none 1 = some .sqrtDomainError :=
  ⟨faithful_defaultOps, C1_no_radicand_clamp defaultOps faithful_defaultOps⟩

/-- C2, claim as stated, refuted: for the unknown identifier `"XYZ"` the
multi-stage scheduler's fuel lookup does not fail — it silently returns
RP1's `(1.2, 287.0)` — and a one-stage multi-stage run on fuel `"XYZ"`
completes and produces a sample. -/
theorem C2_unknown_fuel_counterexample :
    advGetFuelProperties "XYZ" = (6 / 5, 287) ∧
    msSampleCount (multiStage defaultOps
      [⟨"XYZ", 101325, 0, 10, 2, 1, 0, none, none, 0, none⟩] 1 none 10) =
      some 1 := by
  constructor
  · simp [advGetFuelProperties, fuelProps]
  · norm_num [multiStage, mLoop, mTick, mGuard, mBound, advGetFuelProperties,
      fuelProps, pressure, mCalcDrag, mRk4, truthyGE, defaultOps,
      msSampleCount, listMax, List.isEmpty]

/-- C2 (amended): the single-stage `rocket_simulation` rejects every
identifier outside `{RP1, LH2, SRF, N2O4}` before any sample is
produced; the multi-stage `_get_fuel_properties`, however, silently
substitutes RP1's `(1.2, 287.0)` for unknown identifiers instead of
failing. -/
theorem C2_unknown_fuel (ops : TransOps) (fuelType : String)
    (cocp ct altitude intmass propmass mfr dt referenceArea : ℚ)
    (rt : Bool) (mt : Option ℚ) (n : ℕ)
    (h : fuelType ∉ (["RP1", "LH2", "SRF", "N2O4"] : List String)) :
    engineSim ops fuelType cocp ct altitude intmass propmass mfr dt
      referenceArea rt mt n = some .invalidFuel ∧
    advGetFuelProperties fuelType = (6 / 5, 287) := by
  simp only [List.mem_cons, List.mem_singleton, not_or] at h
  obtain ⟨h1, h2, h3, h4⟩ := h
  have hfp : fuelProps fuelType = none := by
    simp [fuelProps, h1, h2, h3, h4]
  exact ⟨by simp [engineSim, hfp], by simp [advGetFuelProperties, hfp]⟩

theorem C2_unknown_fuel_witness :
    ("XYZ" ∉ (["RP1", "LH2", "SRF", "N2O4"] : List String)) ∧
    (engineSim defaultOps "XYZ" 1 1 0 1 1 1 1 1 false none 0 =
      some .invalidFuel ∧
    advGetFuelProperties "XYZ" = (6 / 5, 287)) :=
  ⟨by simp, C2_unknown_fuel defaultOps "XYZ" 1 1 0 1 1 1 1 1 false none 0
    (by simp)⟩

/-- With zero mass flow the `Engine.rocket_simulation` step never
consumes propellant (used for the non-termination counterexample). -/
theorem engineLoop_stuck_aux :
    ∀ (n : ℕ) (st : EngState) (acc : EngAcc), st.propmass = 5 →
    engineLoop defaultOps ⟨6 / 5, 287, 101325, 0, 0, 1, 1⟩ none false n st acc
      = none := by
  intro n
  induction n with
  | zero =>
    intro st acc hpm
    have hg : engGuard none st := by
      constructor
      · rw [hpm]; norm_num
      · trivial
    simp [engineLoop, hg]
  | succ n ih =>
    intro st acc hpm
    have hg : engGuard none st := by
      constructor
      · rw [hpm]; norm_num
      · trivial
    have hrad : engRad defaultOps ⟨6 / 5, 287, 101325, 0, 0, 1, 1⟩ st = 0 := by
      simp [engRad]
    have hstep : engineStep defaultOps ⟨6 / 5, 287, 101325, 0, 0, 1, 1⟩ st =
        some (engAdvance defaultOps ⟨6 / 5, 287, 101325, 0, 0, 1, 1⟩ st) := by
      simp [engineStep, hrad]
    have hpm' : (engAdvance defaultOps ⟨6 / 5, 287, 101325, 0, 0, 1, 1⟩
        st).1.propmass = 5 := by
      rw [engAdvance_fst_propmass, hpm]
      norm_num
    simp only [engineLoop, hg, if_true, hstep]
    simp only [Bool.false_eq_true, false_and, if_false]
    exact ih _ _ hpm'

/-- C4, claim as stated, refuted: `Engine.rocket_simulation` has no
iteration or time ceiling of its own (`max_time` defaults to `None`),
so the pathological input "zero mass flow, propellant never depletes"
loops forever: no amount of fuel makes the embedded loop return. -/
theorem C4_no_ceiling_counterexample :
    ¬ ∃ n : ℕ,
      (engineSim defaultOps "RP1" 101325 0 0 10 5 0 1 1 false none n).isSome
        = true := by
  rintro ⟨n, hn⟩
  have h : engineSim defaultOps "RP1" 101325 0 0 10 5 0 1 1 false none n
      = none := by
    simp [engineSim, fuelProps,
      engineLoop_stuck_aux n ⟨5, 10, 0, 0, 0, 0, 0⟩ emptyAcc rfl]
  rw [h] at hn
  simp at hn

/-- C4 (amended), part 1: the GUI inline loop's hard iteration ceiling
(`iterations < 200000`) guarantees termination — fuel
`200001 - iterations` always suffices. -/
theorem flLoop_terminates (ops : TransOps) (P : FlParams) :
    ∀ (m : ℕ) (st : FlState) (acc : EngAcc), 200000 < st.iters + m →
    (flLoop ops P m st acc).isSome = true := by
  intro m
  induction m with
  | zero =>
    intro st acc hm
    have hg : ¬ flGuard st := by
      intro hgg
      exact absurd hgg.2.2 (by omega)
    simp [flLoop, hg]
  | succ m ih =>
    intro st acc hm
    by_cases hg : flGuard st
    · simp only [flLoop, hg, if_true]
      split
      · simp
      · split
        · simp
        · apply ih
          rw [flAdvance_fst_iters]
          omega
    · simp [flLoop, hg]

/-- C4 (amended): the GUI loop of `run_rocket_simulation` is subject to
hard ceilings (`time < 10000`, `iterations < 200000`) and terminates on
every input; but ceiling exhaustion is NOT surfaced as a truncation
marker — the result always reports `simulation_complete = True`
(line 719).  (`Engine.rocket_simulation` itself has no ceiling at all
when `max_time is None`; see the counterexample.) -/
theorem C4_ceilings (ops : TransOps) (fuelType : String)
    (cocp ct altitude intmass propmass mfr dt referenceArea : ℚ)
    (enableFailure : Bool) (failureTime : Option ℚ) (enableAbort : Bool)
    (abortTime : Option ℚ) (pArea pCd : ℚ) :
    (flSim ops fuelType cocp ct altitude intmass propmass mfr dt
      referenceArea enableFailure failureTime enableAbort abortTime pArea
      pCd 200001).isSome = true ∧
    (∀ n : ℕ, flCompleteOf (flSim ops fuelType cocp ct altitude intmass
      propmass mfr dt referenceArea enableFailure failureTime enableAbort
      abortTime pArea pCd n) = true) := by
  constructor
  · unfold flSim
    cases hfp : fuelProps fuelType with
    | none => simp
    | some kR =>
      simp only
      have := flLoop_terminates ops ⟨kR.1, kR.2, cocp, ct, dt, referenceArea,
        enableFailure, failureTime, enableAbort, abortTime, pArea, pCd⟩ 200001
        ⟨propmass, intmass, mfr, 0, 0, altitude, 0, none, none, false, 0⟩
        emptyAcc (by omega)
      cases hl : flLoop ops ⟨kR.1, kR.2, cocp, ct, dt, referenceArea,
        enableFailure, failureTime, enableAbort, abortTime, pArea, pCd⟩ 200001
        ⟨propmass, intmass, mfr, 0, 0, altitude, 0, none, none, false, 0⟩
        emptyAcc with
      | none => rw [hl] at this; simp at this
      | some p => simp
  · intro n
    unfold flSim flCompleteOf
    cases hfp : fuelProps fuelType with
    | none => simp
    | some kR =>
      simp only
      cases hl : flLoop ops ⟨kR.1, kR.2, cocp, ct, dt, referenceArea,
        enableFailure, failureTime, enableAbort, abortTime, pArea, pCd⟩ n
        ⟨propmass, intmass, mfr, 0, 0, altitude, 0, none, none, false, 0⟩
        emptyAcc with
      | none => simp
      | some p => simp

theorem flAdvance_abort (ops : TransOps) (P : FlParams) (st : FlState)
    (idx : ℕ) (ha : abortCond P st.time = true) (hpm : 0 ≤ st.propmass)
    (hinv : st.abortIdx = none ∨ st.abortTriggered = true) :
    (flAdvance ops P st idx).1.abortTriggered = true ∧
    (flAdvance ops P st idx).1.propmass = st.propmass ∧
    (flAdvance ops P st idx).2.thrust = 0 ∧
    (flAdvance ops P st idx).2.massFlow = 0 ∧
    (flAdvance ops P st idx).2.drag =
      parachuteDrag ops P.pArea P.pCd st.vel st.alt := by
  have htrig : (flAdvance ops P st idx).1.abortTriggered = true := by
    simp only [flAdvance, ha]
    rcases hinv with h | h
    · simp [h]
    · cases hidx : st.abortIdx <;> simp [h]
  refine ⟨htrig, ?_, ?_, ?_, ?_⟩
  · simp only [flAdvance, ha]
    simp [min_eq_left hpm]
  · simp only [flAdvance, ha]
    simp
  · simp only [flAdvance, ha]
    simp
  · simp only [flAdvance, ha] at htrig ⊢
    simp only [if_true]
    split
    · rfl
    · rename_i hcond
      exact absurd htrig (by simp [hcond])

theorem flLoop_abort_exit (ops : TransOps) (P : FlParams) (ta : ℚ)
    (hA : P.enableAbort = true) (hT : P.abortTime = some ta) (hdt : 0 ≤ P.dt) :
    ∀ (n : ℕ) (st : FlState) (acc : EngAcc) (stF : FlState) (accF : EngAcc),
    ta ≤ st.time → 0 < st.propmass →
    (st.abortIdx = none ∨ st.abortTriggered = true) →
    flLoop ops P n st acc = some (stF, accF) →
    stF.alt ≤ 0 ∨ 10000 ≤ stF.time ∨ 200000 ≤ stF.iters := by
  intro n
  induction n with
  | zero =>
    intro st acc stF accF hta hpm hinv hl
    by_cases hg : flGuard st
    · simp [flLoop, hg] at hl
    · simp only [flLoop, hg, if_false] at hl
      obtain ⟨h1, h2⟩ := Prod.mk.injEq .. ▸ (Option.some_injective _ hl)
      subst h1
      unfold flGuard at hg
      push_neg at hg
      rcases lt_or_le st.time 10000 with ht | ht
      · rcases lt_or_le st.iters 200000 with hi | hi
        · exact absurd (hg (Or.inl hpm) ht) (by omega)
        · exact Or.inr (Or.inr hi)
      · exact Or.inr (Or.inl ht)
  | succ n ih =>
    intro st acc stF accF hta hpm hinv hl
    by_cases hg : flGuard st
    · have ha : abortCond P st.time = true := by
        simp [abortCond, hA, hT, hta]
      have hstep := flAdvance_abort ops P st acc.time.length ha hpm.le hinv
      simp only [flLoop, hg, if_true] at hl
      by_cases hb1 : (flAdvance ops P st acc.time.length).1.abortTriggered =
          true ∧ (flAdvance ops P st acc.time.length).1.alt ≤ 0
      · simp only [hb1, if_true] at hl
        obtain ⟨h1, h2⟩ := Prod.mk.injEq .. ▸ (Option.some_injective _ hl)
        subst h1
        exact Or.inl hb1.2
      · simp only [hb1, if_false] at hl
        have hb2 : ¬ ((flAdvance ops P st acc.time.length).2.thrust = 0 ∧
            (flAdvance ops P st acc.time.length).1.propmass ≤ 0 ∧
            ¬ (flAdvance ops P st acc.time.length).1.abortTriggered = true) := by
          intro hc
          exact hc.2.2 hstep.1
        simp only [hb2, if_false] at hl
        apply ih _ _ _ _ _ _ _ hl
        · rw [flAdvance_fst_time]
          linarith
        · rw [hstep.2.1]
          exact hpm
        · exact Or.inr hstep.1
    · simp only [flLoop, hg, if_false] at hl
      obtain ⟨h1, h2⟩ := Prod.mk.injEq .. ▸ (Option.some_injective _ hl)
      subst h1
      unfold flGuard at hg
      push_neg at hg
      rcases lt_or_le st.time 10000 with ht | ht
      · rcases lt_or_le st.iters 200000 with hi | hi
        · exact absurd (hg (Or.inl hpm) ht) (by omega)
        · exact Or.inr (Or.inr hi)
      · exact Or.inr (Or.inl ht)

/-- C5, claim as stated, refuted: with abort from `t = 0` and a
parachute of zero area, the GUI run terminates at the first step with
`altitude = -3.905 ≤ 0` while `|velocity| = 9.81 > 0.5`: the loop's
abort `break` (line 701) tests only `altitude <= 0`, not the velocity. -/
theorem C5_abort_counterexample :
    (flLoop defaultOps ⟨6 / 5, 287, 101325, 0, 1, 0, false, none, true,
        some 0, 0, 0⟩ 5 ⟨100, 10, 5, 0, 0, 1, 0, none, none, false, 0⟩
        emptyAcc).map (fun p => (p.1.alt, p.1.vel)) =
      some (-781 / 200, -981 / 100) ∧
    ¬ ((981 : ℚ) / 100 ≤ 1 / 2) := by
  constructor
  · norm_num [flLoop, flGuard, flAdvance, abortCond, failCond, parachuteDrag,
      calculateDrag, pressure, defaultOps, pushAcc, emptyAcc]
  · norm_num

/-- C5 (amended): once the abort condition holds (abort enabled and
elapsed time ≥ abort time), each step forces thrust and mass flow to
zero and uses the parachute drag model, and — as long as propellant
remains positive — the loop can only exit with `altitude ≤ 0` (the
landing `break`; the velocity is NOT required to be small) or by
hitting the `time < 10000` / `iterations < 200000` ceilings. -/
theorem C5_abort_semantics (ops : TransOps) (P : FlParams) (ta : ℚ)
    (hA : P.enableAbort = true) (hT : P.abortTime = some ta)
    (hdt : 0 ≤ P.dt) :
    (∀ (st : FlState) (idx : ℕ), ta ≤ st.time → 0 ≤ st.propmass →
      (st.abortIdx = none ∨ st.abortTriggered = true) →
      (flAdvance ops P st idx).1.abortTriggered = true ∧
      (flAdvance ops P st idx).2.thrust = 0 ∧
      (flAdvance ops P st idx).2.massFlow = 0 ∧
      (flAdvance ops P st idx).2.drag =
        parachuteDrag ops P.pArea P.pCd st.vel st.alt) ∧
    (∀ (n : ℕ) (st : FlState) (acc : EngAcc) (stF : FlState) (accF : EngAcc),
      ta ≤ st.time → 0 < st.propmass →
      (st.abortIdx = none ∨ st.abortTriggered = true) →
      flLoop ops P n st acc = some (stF, accF) →
      stF.alt ≤ 0 ∨ 10000 ≤ stF.time ∨ 200000 ≤ stF.iters) := by
  constructor
  · intro st idx hta hpm hinv
    have ha : abortCond P st.time = true := by
      simp [abortCond, hA, hT, hta]
    have h := flAdvance_abort ops P st idx ha hpm hinv
    exact ⟨h.1, h.2.2.1, h.2.2.2.1, h.2.2.2.2⟩
  · exact flLoop_abort_exit ops P ta hA hT hdt

theorem C5_abort_semantics_witness :
    ((⟨6 / 5, 287, 101325, 0, 1, 0, false, none, true, some 0, 0, 0⟩ :
        FlParams).enableAbort = true ∧
      (⟨6 / 5, 287, 101325, 0, 1, 0, false, none, true, some 0, 0, 0⟩ :
        FlParams).abortTime = some 0 ∧
      (0 : ℚ) ≤ (⟨6 / 5, 287, 101325, 0, 1, 0, false, none, true, some 0, 0,
        0⟩ : FlParams).dt) ∧
    ((∀ (st : FlState) (idx : ℕ), (0 : ℚ) ≤ st.time → 0 ≤ st.propmass →
      (st.abortIdx = none ∨ st.abortTriggered = true) →
      (flAdvance defaultOps ⟨6 / 5, 287, 101325, 0, 1, 0, false, none, true,
        some 0, 0, 0⟩ st idx).1.abortTriggered = true ∧
      (flAdvance defaultOps ⟨6 / 5, 287, 101325, 0, 1, 0, false, none, true,
        some 0, 0, 0⟩ st idx).2.thrust = 0 ∧
      (flAdvance defaultOps ⟨6 / 5, 287, 101325, 0, 1, 0, false, none, true,
        some 0, 0, 0⟩ st idx).2.massFlow = 0 ∧
      (flAdvance defaultOps ⟨6 / 5, 287, 101325, 0, 1, 0, false, none, true,
        some 0, 0, 0⟩ st idx).2.drag =
        parachuteDrag defaultOps 0 0 st.vel st.alt) ∧
    (∀ (n : ℕ) (st : FlState) (acc : EngAcc) (stF : FlState) (accF : EngAcc),
      (0 : ℚ) ≤ st.time → 0 < st.propmass →
      (st.abortIdx = none ∨ st.abortTriggered = true) →
      flLoop defaultOps ⟨6 / 5, 287, 101325, 0, 1, 0, false, none, true,
        some 0, 0, 0⟩ n st acc = some (stF, accF) →
      stF.alt ≤ 0 ∨ 10000 ≤ stF.time ∨ 200000 ≤ stF.iters)) :=
  ⟨⟨rfl, rfl, by norm_num⟩,
   C5_abort_semantics defaultOps
     ⟨6 / 5, 287, 101325, 0, 1, 0, false, none, true, some 0, 0, 0⟩ 0
     rfl rfl (by norm_num)⟩

theorem engineStep_mass_mono (ops : TransOps) (P : EngParams)
    (st st' : EngState) (smp : EngSample) (hmfr : 0 < P.mfr) (hdt : 0 < P.dt)
    (hpm : 0 < st.propmass) (h : engineStep ops P st = some (st', smp)) :
    st'.mass ≤ st.mass ∧ st'.propmass ≤ st.propmass ∧ 0 ≤ st'.propmass := by
  have hmin0 : 0 ≤ min (P.mfr * P.dt) st.propmass :=
    le_min (by positivity) hpm.le
  have hminp : min (P.mfr * P.dt) st.propmass ≤ st.propmass :=
    min_le_right _ _
  by_cases hrad : engRad ops P st < 0
  · simp [engineStep, hrad] at h
  · rw [engineStep, if_neg hrad] at h
    have h' : engAdvance ops P st = (st', smp) := Option.some_injective _ h
    have h1 : (engAdvance ops P st).1 = st' := congrArg Prod.fst h'
    refine ⟨?_, ?_, ?_⟩
    · rw [← h1, engAdvance_fst_mass]; linarith
    · rw [← h1, engAdvance_fst_propmass]; linarith
    · rw [← h1, engAdvance_fst_propmass]; linarith

theorem engineLoop_fuel_bounds (ops : TransOps) (P : EngParams)
    (mt : Option ℚ) (rt : Bool) (hmfr : 0 < P.mfr) (hdt : 0 < P.dt)
    (P0 : ℚ) : ∀ (n : ℕ) (st : EngState) (acc : EngAcc) (st2 : EngState)
    (acc2 : EngAcc) (c : Bool), st.propmass ≤ P0 →
    (∀ x ∈ acc.fuel, 0 ≤ x ∧ x ≤ P0) →
    engineLoop ops P mt rt n st acc = some (.done st2 acc2 c) →
    ∀ x ∈ acc2.fuel, 0 ≤ x ∧ x ≤ P0 := by
  intro n
  induction n with
  | zero =>
    intro st acc st2 acc2 c hle hacc hl
    by_cases hg : engGuard mt st
    · simp [engineLoop, hg] at hl
    · simp only [engineLoop, hg, if_false, Option.some_inj] at hl
      cases hl
      exact hacc
  | succ n ih =>
    intro st acc st2 acc2 c hle hacc hl
    by_cases hg : engGuard mt st
    · simp only [engineLoop, hg, if_true] at hl
      cases hstep : engineStep ops P st with
      | none => rw [hstep] at hl; simp at hl
      | some p =>
        rw [hstep] at hl
        have hm := engineStep_mass_mono ops P st p.1 p.2 hmfr hdt hg.1 hstep
        have hfuel : p.2.fuel = p.1.propmass := by
          by_cases hrad : engRad ops P st < 0
          · simp [engineStep, hrad] at hstep
          · rw [engineStep, if_neg hrad] at hstep
            have h' : engAdvance ops P st = p := Option.some_injective _ hstep
            rw [← h']
            rw [engAdvance_snd_fuel, engAdvance_fst_propmass]
        have hacc' : ∀ x ∈ (pushAcc acc p.2).fuel, 0 ≤ x ∧ x ≤ P0 := by
          intro x hx
          simp only [pushAcc, List.mem_append, List.mem_singleton] at hx
          rcases hx with hx | hx
          · exact hacc x hx
          · subst hx
            rw [hfuel]
            exact ⟨hm.2.2, hm.2.1.trans hle⟩
        simp only at hl
        by_cases hrt : rt = true ∧ (1 / 4 : ℚ) ≤ p.1.time - p.1.lastReturn
        · simp only [hrt, if_true, Option.some_inj] at hl
          cases hl
          exact hacc'
        · simp only [hrt, if_false] at hl
          exact ih p.1 (pushAcc acc p.2) st2 acc2 c (hm.2.1.trans hle) hacc' hl
    · simp only [engineLoop, hg, if_false, Option.some_inj] at hl
      cases hl
      exact hacc

theorem C7_burning_invariants (ops : TransOps) (fuelType : String)
    (cocp ct altitude intmass propmass mfr dt referenceArea : ℚ)
    (rt : Bool) (mt : Option ℚ) (n : ℕ)
    (_hle : propmass ≤ intmass) (hmfr : 0 < mfr) (hdt : 0 < dt) :
    (∀ x ∈ (dataOf (engineSim ops fuelType cocp ct altitude intmass propmass
      mfr dt referenceArea rt mt n)).fuel, 0 ≤ x ∧ x ≤ propmass) ∧
    (∀ (P : EngParams) (st st' : EngState) (smp : EngSample), 0 < P.mfr →
      0 < P.dt → 0 < st.propmass → engineStep ops P st = some (st', smp) →
      st'.mass ≤ st.mass ∧ st'.propmass ≤ st.propmass ∧ 0 ≤ st'.propmass) := by
  constructor
  · unfold engineSim
    cases hfp : fuelProps fuelType with
    | none => simp [dataOf]
    | some kR =>
      simp only
      cases hl : engineLoop ops ⟨kR.1, kR.2, cocp, ct, mfr, dt,
          referenceArea⟩ mt rt n
          ⟨propmass, intmass, 0, 0, altitude, 0, 0⟩ emptyAcc with
      | none => simp [dataOf]
      | some out =>
        cases out with
        | sqrtErr => simp [dataOf]
        | done st2 acc2 c =>
          have := engineLoop_fuel_bounds ops ⟨kR.1, kR.2, cocp, ct, mfr, dt,
            referenceArea⟩ mt rt hmfr hdt propmass n
            ⟨propmass, intmass, 0, 0, altitude, 0, 0⟩ emptyAcc st2 acc2 c
            le_rfl (by simp [emptyAcc]) hl
          simpa [dataOf, mkEngData] using this
  · intro P st st' smp h1 h2 h3 h4
    exact engineStep_mass_mono ops P st st' smp h1 h2 h3 h4

theorem C7_burning_invariants_witness :
    ((2 : ℚ) ≤ 10 ∧ (0 : ℚ) < 1 ∧ (0 : ℚ) < 1) ∧
    ((∀ x ∈ (dataOf (engineSim defaultOps "RP1" 101325 0 0 10 2 1 1 0 false
      none 5)).fuel, 0 ≤ x ∧ x ≤ 2) ∧
    (∀ (P : EngParams) (st st' : EngState) (smp : EngSample), 0 < P.mfr →
      0 < P.dt → 0 < st.propmass →
      engineStep defaultOps P st = some (st', smp) →
      st'.mass ≤ st.mass ∧ st'.propmass ≤ st.propmass ∧ 0 ≤ st'.propmass)) :=
  ⟨⟨by norm_num, by norm_num, by norm_num⟩,
   C7_burning_invariants defaultOps "RP1" 101325 0 0 10 2 1 1 0 false none 5
     (by norm_num) (by norm_num) (by norm_num)⟩

/-- All ten per-sample arrays have the length of `time` (they are
appended in lockstep, one element per accepted step). -/
def accUniform (acc : EngAcc) : Prop :=
  acc.thrust.length = acc.time.length ∧
  acc.fuel.length = acc.time.length ∧
  acc.massFlow.length = acc.time.length ∧
  acc.vel.length = acc.time.length ∧
  acc.alt.length = acc.time.length ∧
  acc.isp.length = acc.time.length ∧
  acc.energy.length = acc.time.length ∧
  acc.drag.length = acc.time.length ∧
  acc.accel.length = acc.time.length

theorem pushAcc_uniform (acc : EngAcc) (s : EngSample)
    (h : accUniform acc) : accUniform (pushAcc acc s) := by
  unfold accUniform at h ⊢
  simp only [pushAcc, List.length_append, List.length_singleton]
  omega

theorem engineLoop_uniform (ops : TransOps) (P : EngParams)
    (mt : Option ℚ) (rt : Bool) : ∀ (n : ℕ) (st : EngState) (acc : EngAcc)
    (st2 : EngState) (acc2 : EngAcc) (c : Bool), accUniform acc →
    engineLoop ops P mt rt n st acc = some (.done st2 acc2 c) →
    accUniform acc2 := by
  intro n
  induction n with
  | zero =>
    intro st acc st2 acc2 c hacc hl
    by_cases hg : engGuard mt st
    · simp [engineLoop, hg] at hl
    · simp only [engineLoop, hg, if_false, Option.some_inj] at hl
      cases hl
      exact hacc
  | succ n ih =>
    intro st acc st2 acc2 c hacc hl
    by_cases hg : engGuard mt st
    · simp only [engineLoop, hg, if_true] at hl
      cases hstep : engineStep ops P st with
      | none => rw [hstep] at hl; simp at hl
      | some p =>
        rw [hstep] at hl
        simp only at hl
        by_cases hrt : rt = true ∧ (1 / 4 : ℚ) ≤ p.1.time - p.1.lastReturn
        · simp only [hrt, if_true, Option.some_inj] at hl
          cases hl
          exact pushAcc_uniform acc p.2 hacc
        · simp only [hrt, if_false] at hl
          exact ih p.1 (pushAcc acc p.2) st2 acc2 c
            (pushAcc_uniform acc p.2 hacc) hl
    · simp only [engineLoop, hg, if_false, Option.some_inj] at hl
      cases hl
      exact hacc

/-- Shape contract of an `Engine.rocket_simulation` result: the ten
per-sample arrays have equal length, and `initial_thrust` is the first
element of `thrust` whenever it is non-empty. -/
def engShapeOk (d : EngData) : Prop :=
  d.thrust.length = d.time.length ∧
  d.fuel.length = d.time.length ∧
  d.massFlow.length = d.time.length ∧
  d.vel.length = d.time.length ∧
  d.alt.length = d.time.length ∧
  d.isp.length = d.time.length ∧
  d.energy.length = d.time.length ∧
  d.drag.length = d.time.length ∧
  d.accel.length = d.time.length ∧
  (d.thrust ≠ [] → d.initialThrust = d.thrust.headD 0)

/-- C10: every result other than the unknown-fuel error — partial
(real-time) or complete — carries ten equal-length per-sample arrays,
and `initial_thrust` equals the head of `thrust` when non-empty.
(The error outcomes carry no arrays; `dataOf` maps them to the empty
record, for which the contract holds trivially.) -/
theorem C10_result_shape (ops : TransOps) (fuelType : String)
    (cocp ct altitude intmass propmass mfr dt referenceArea : ℚ)
    (rt : Bool) (mt : Option ℚ) (n : ℕ) :
    engShapeOk (dataOf (engineSim ops fuelType cocp ct altitude intmass
      propmass mfr dt referenceArea rt mt n)) := by
  unfold engineSim
  cases hfp : fuelProps fuelType with
  | none => simp [dataOf, engShapeOk]
  | some kR =>
    simp only
    cases hl : engineLoop ops ⟨kR.1, kR.2, cocp, ct, mfr, dt,
        referenceArea⟩ mt rt n
        ⟨propmass, intmass, 0, 0, altitude, 0, 0⟩ emptyAcc with
    | none => simp [dataOf, engShapeOk]
    | some out =>
      cases out with
      | sqrtErr => simp [dataOf, engShapeOk]
      | done st2 acc2 c =>
        have hu := engineLoop_uniform ops ⟨kR.1, kR.2, cocp, ct, mfr, dt,
          referenceArea⟩ mt rt n ⟨propmass, intmass, 0, 0, altitude, 0, 0⟩
          emptyAcc st2 acc2 c (by simp [emptyAcc, accUniform]) hl
        unfold accUniform at hu
        refine ⟨hu.1, hu.2.1, hu.2.2.1, hu.2.2.2.1, hu.2.2.2.2.1,
          hu.2.2.2.2.2.1, hu.2.2.2.2.2.2.1, hu.2.2.2.2.2.2.2.1,
          hu.2.2.2.2.2.2.2.2, fun _ => rfl⟩

theorem getD_nonneg : ∀ (l : List ℚ) (i : ℕ), (∀ x ∈ l, 0 ≤ x) →
    0 ≤ l.getD i 0
  | [], i, _ => by simp
  | x :: xs, 0, h => by simpa using h x (List.mem_cons_self x xs)
  | x :: xs, i + 1, h => by
    simpa using getD_nonneg xs i (fun y hy => h y (List.mem_cons_of_mem x hy))

theorem set_nonneg (l : List ℚ) (i : ℕ) (v : ℚ) (hv : 0 ≤ v)
    (h : ∀ x ∈ l, 0 ≤ x) : ∀ x ∈ l.set i v, 0 ≤ x := by
  intro x hx
  rcases List.mem_or_eq_of_mem_set hx with hx' | hx'
  · exact h x hx'
  · subst hx'; exact hv

theorem chainGe_append (l : List ℚ) (v : ℚ)
    (hc : List.Chain' (fun a b => b ≤ a) l)
    (hlast : ∀ x ∈ l.getLast?, v ≤ x) :
    List.Chain' (fun a b => b ≤ a) (l ++ [v]) := by
  rw [List.chain'_append]
  refine ⟨hc, List.chain'_singleton v, ?_⟩
  intro x hx y hy
  simp only [List.head?_cons, Option.mem_def, Option.some_inj] at hy
  subst hy
  exact hlast x hx

/-- Loop invariant of `multi_stage_simulation`: per-stage propellants
are non-negative, the recorded masses are non-increasing, and the
current mass is at most the last recorded one. -/
def mInv (st : MState) (acc : MAcc) : Prop :=
  (∀ x ∈ st.props, 0 ≤ x) ∧
  List.Chain' (fun a b => b ≤ a) acc.mass ∧
  (∀ x ∈ acc.mass.getLast?, st.mass ≤ x)

theorem mTick_preserves (ops : TransOps) (stages : List MStage)
    (flows : List ℚ) (dt : ℚ) (hf : ∀ x ∈ flows, 0 ≤ x) (hdt : 0 ≤ dt)
    (st : MState) (acc : MAcc) (hinv : mInv st acc) :
    (∀ st' acc', mTick ops stages flows dt st acc = .cont st' acc' →
      mInv st' acc') ∧
    (∀ st' acc', mTick ops stages flows dt st acc = .halt st' acc' →
      mInv st' acc') := by
  obtain ⟨hprops, hchain, hlast⟩ := hinv
  unfold mTick
  set stg := stages.getD st.cursor
    ⟨"RP1", 0, 0, 0, 0, 0, 0, none, none, 0, none⟩ with hstg
  by_cases hsep : st.cursor < stages.length ∧
      (truthyGE st.alt stg.sepAlt = true ∨ truthyGE st.time stg.sepTime = true)
  · simp only [hsep, if_true]
    constructor
    · intro st' acc' he
      cases he
      exact ⟨hprops, hchain, hlast⟩
    · intro st' acc' he
      cases he
  · simp only [hsep, if_false]
    set fm := st.fairings.getD st.cursor 0 with hfm
    set doF : Bool := decide (st.cursor < stages.length) &&
      truthyGE st.alt stg.fairingSepAlt && decide (0 < fm) with hdoF
    set st1 := if doF = true then
        { st with mass := st.mass - fm,
                  fairings := st.fairings.set st.cursor 0 }
      else st with hst1
    set acc1 := if doF = true then
        { acc with events := acc.events ++ [⟨.fairingSeparation, st.time⟩] }
      else acc with hacc1
    have hst1mass : st1.mass ≤ st.mass := by
      rw [hst1]
      split
      · rename_i hdo
        simp only
        have : (0 : ℚ) < fm := by
          rw [hdoF] at hdo
          simp only [Bool.and_eq_true, decide_eq_true_eq] at hdo
          exact hdo.2
        linarith
      · exact le_rfl
    have hst1props : st1.props = st.props := by
      rw [hst1]; split <;> rfl
    have hst1cursor : st1.cursor = st.cursor := by
      rw [hst1]; split <;> rfl
    have hacc1mass : acc1.mass = acc.mass := by
      rw [hacc1]; split <;> rfl
    by_cases hcur : st1.cursor < stages.length
    · simp only [hcur, if_true]
      by_cases hrad : (2 * (advGetFuelProperties stg.fuelType).1) /
          ((advGetFuelProperties stg.fuelType).1 - 1) *
          (advGetFuelProperties stg.fuelType).2 * stg.ct *
          (1 - if stg.cocp > 0 then
            ops.rpow (pressure ops st1.alt / stg.cocp)
              (((advGetFuelProperties stg.fuelType).1 - 1) /
                (advGetFuelProperties stg.fuelType).1) else 0) < 0
      · simp only [hrad, if_true]
        constructor
        · intro st' acc' he
          cases he
        · intro st' acc' he
          cases he
      · simp only [hrad, if_false]
        set flow := flows.getD st1.cursor 0 with hflow
        set pcur := st1.props.getD st1.cursor 0 with hpcur
        set massUsed := min (flow * dt) pcur with hmu
        have hflow0 : 0 ≤ flow := getD_nonneg flows st1.cursor hf
        have hpropst1 : ∀ x ∈ st1.props, 0 ≤ x := by
          rw [hst1props]
          exact hprops
        have hpcur0 : 0 ≤ pcur := by
          rw [hpcur]
          exact getD_nonneg st1.props st1.cursor hpropst1
        have hmu0 : 0 ≤ massUsed := le_min (by positivity) hpcur0
        have hmup : massUsed ≤ pcur := min_le_right _ _
        have hmass' : st1.mass - massUsed ≤ st.mass := by linarith
        have hprops' : ∀ x ∈ st1.props.set st1.cursor (pcur - massUsed),
            0 ≤ x := set_nonneg _ _ _ (by linarith) hpropst1
        by_cases hdep : (st1.props.set st1.cursor (pcur - massUsed)).getD
            st1.cursor 0 ≤ 0
        · simp only [hdep, if_true]
          constructor
          · intro st' acc' he
            cases he
            refine ⟨hprops', hacc1mass ▸ hchain, ?_⟩
            intro x hx
            rw [hacc1mass] at hx
            have := hlast x hx
            simp only
            linarith
          · intro st' acc' he
            cases he
        · simp only [hdep, if_false]
          constructor
          · intro st' acc' he
            cases he
            refine ⟨hprops', ?_, ?_⟩
            · simp only [hacc1mass]
              apply chainGe_append _ _ hchain
              intro x hx
              have := hlast x hx
              linarith
            · intro x hx
              simp only [hacc1mass, List.getLast?_concat, Option.mem_def,
                Option.some_inj] at hx
              subst hx
              simp only
              exact le_rfl
          · intro st' acc' he
            cases he
    · simp only [hcur, if_false]
      constructor
      · intro st' acc' he
        cases he
      · intro st' acc' he
        cases he
        refine ⟨?_, ?_, ?_⟩
        · rw [hst1props]
          exact hprops
        · rw [hacc1mass]
          exact hchain
        · intro x hx
          rw [hacc1mass] at hx
          have := hlast x hx
          linarith

theorem mLoop_mass_chain (ops : TransOps) (stages : List MStage)
    (flows : List ℚ) (dt : ℚ) (b : Option ℚ) (hf : ∀ x ∈ flows, 0 ≤ x)
    (hdt : 0 ≤ dt) : ∀ (n : ℕ) (st : MState) (acc : MAcc) (stF : MState)
    (accF : MAcc), mInv st acc →
    mLoop ops stages flows dt b n st acc = some (.done stF accF) →
    List.Chain' (fun a b => b ≤ a) accF.mass := by
  intro n
  induction n with
  | zero =>
    intro st acc stF accF hinv hl
    by_cases hg : mGuard b st
    · simp [mLoop, hg] at hl
    · simp only [mLoop, hg, if_false, Option.some_inj] at hl
      cases hl
      exact hinv.2.1
  | succ n ih =>
    intro st acc stF accF hinv hl
    by_cases hg : mGuard b st
    · simp only [mLoop, hg, if_true] at hl
      have hpres := mTick_preserves ops stages flows dt hf hdt st acc hinv
      cases ht : mTick ops stages flows dt st acc with
      | err => rw [ht] at hl; simp at hl
      | halt st' acc' =>
        rw [ht] at hl
        simp only [Option.some_inj] at hl
        cases hl
        exact (hpres.2 _ _ ht).2.1
      | cont st' acc' =>
        rw [ht] at hl
        exact ih st' acc' stF accF (hpres.1 st' acc' ht) hl
    · simp only [mLoop, hg, if_false, Option.some_inj] at hl
      cases hl
      exact hinv.2.1

theorem mTick_cursor_advance (ops : TransOps) (stages : List MStage)
    (flows : List ℚ) (dt : ℚ) (st : MState) (acc : MAcc) (st' : MState)
    (acc' : MAcc) (he : mTick ops stages flows dt st acc = .cont st' acc')
    (hc : st'.cursor ≠ st.cursor) : st'.vel = st.vel ∧ st'.alt = st.alt := by
  unfold mTick at he
  set stg := stages.getD st.cursor
    ⟨"RP1", 0, 0, 0, 0, 0, 0, none, none, 0, none⟩ with hstg
  by_cases hsep : st.cursor < stages.length ∧
      (truthyGE st.alt stg.sepAlt = true ∨ truthyGE st.time stg.sepTime = true)
  · simp only [hsep, if_true] at he
    cases he
    exact ⟨rfl, rfl⟩
  · simp only [hsep, if_false] at he
    set doF : Bool := decide (st.cursor < stages.length) &&
      truthyGE st.alt stg.fairingSepAlt &&
      decide (0 < st.fairings.getD st.cursor 0) with hdoF
    set st1 := if doF = true then
        { st with mass := st.mass - st.fairings.getD st.cursor 0,
                  fairings := st.fairings.set st.cursor 0 }
      else st with hst1
    have hv1 : st1.vel = st.vel := by rw [hst1]; split <;> rfl
    have ha1 : st1.alt = st.alt := by rw [hst1]; split <;> rfl
    have hc1 : st1.cursor = st.cursor := by rw [hst1]; split <;> rfl
    by_cases hcur : st1.cursor < stages.length
    · simp only [hcur, if_true] at he
      by_cases hrad : (2 * (advGetFuelProperties stg.fuelType).1) /
          ((advGetFuelProperties stg.fuelType).1 - 1) *
          (advGetFuelProperties stg.fuelType).2 * stg.ct *
          (1 - if stg.cocp > 0 then
            ops.rpow (pressure ops st1.alt / stg.cocp)
              (((advGetFuelProperties stg.fuelType).1 - 1) /
                (advGetFuelProperties stg.fuelType).1) else 0) < 0
      · simp only [hrad, if_true] at he
        cases he
      · simp only [hrad, if_false] at he
        by_cases hdep : (st1.props.set st1.cursor (st1.props.getD st1.cursor 0
            - min (flows.getD st1.cursor 0 * dt)
              (st1.props.getD st1.cursor 0))).getD st1.cursor 0 ≤ 0
        · simp only [hdep, if_true] at he
          cases he
          exact ⟨hv1, ha1⟩
        · simp only [hdep, if_false] at he
          cases he
          exact absurd hc1 hc
    · simp only [hcur, if_false] at he
      cases he

/-- C8: across an entire multi-stage run (non-negative stage mass
flows, non-negative stage propellant loads, non-negative `dt`) the
recorded total mass never increases from sample to sample — fairing
jettison (guarded by `fairing_mass > 0`) and propellant consumption
only lower it — and any tick that advances the stage cursor
(separation or depletion) leaves velocity and altitude untouched. -/
theorem C8_mass_never_increases (ops : TransOps) (stages : List MStage)
    (dt : ℚ) (mt : Option ℚ) (n : ℕ)
    (hf : ∀ s ∈ stages, 0 ≤ s.mfr) (hp : ∀ s ∈ stages, 0 ≤ s.propMass)
    (hdt : 0 ≤ dt) :
    List.Chain' (fun a b => b ≤ a) (msMassOf (multiStage ops stages dt mt n)) ∧
    (∀ (st : MState) (acc : MAcc) (st' : MState) (acc' : MAcc),
      mTick ops stages (stages.map (·.mfr)) dt st acc = .cont st' acc' →
      st'.cursor ≠ st.cursor → st'.vel = st.vel ∧ st'.alt = st.alt) := by
  constructor
  · unfold multiStage
    by_cases hemp : stages.isEmpty
    · simp [hemp, msMassOf]
    · simp only [hemp, Bool.false_eq_true, if_false]
      have hflows : ∀ x ∈ stages.map (·.mfr), 0 ≤ x := by
        intro x hx
        obtain ⟨s, hs, rfl⟩ := List.mem_map.1 hx
        exact hf s hs
      cases hl : mLoop ops stages (stages.map (·.mfr)) dt (mBound mt) n
          ⟨0, 0, 0, (stages.map (·.totalMass)).sum, 0,
           stages.map (·.propMass), stages.map (·.fairingMass)⟩
          ⟨[], [], [], [], [], [], []⟩ with
      | none => simp [msMassOf]
      | some out =>
        cases out with
        | err => simp [msMassOf]
        | done stF accF =>
          have hinv : mInv ⟨0, 0, 0, (stages.map (·.totalMass)).sum, 0,
              stages.map (·.propMass), stages.map (·.fairingMass)⟩
              ⟨[], [], [], [], [], [], []⟩ := by
            refine ⟨?_, by simp, by simp⟩
            intro x hx
            obtain ⟨s, hs, rfl⟩ := List.mem_map.1 hx
            exact hp s hs
          have := mLoop_mass_chain ops stages (stages.map (·.mfr)) dt
            (mBound mt) hflows hdt n _ _ stF accF hinv hl
          simpa [msMassOf] using this
  · intro st acc st' acc' he hc
    exact mTick_cursor_advance ops stages _ dt st acc st' acc' he hc

theorem C8_mass_never_increases_witness :
    ((∀ s ∈ [(⟨"RP1", 101325, 0, 10, 2, 1, 0, none, none, 0, none⟩ :
        MStage)], 0 ≤ s.mfr) ∧
     (∀ s ∈ [(⟨"RP1", 101325, 0, 10, 2, 1, 0, none, none, 0, none⟩ :
        MStage)], 0 ≤ s.propMass) ∧
     (0 : ℚ) ≤ 1) ∧
    List.Chain' (fun a b => b ≤ a) (msMassOf (multiStage defaultOps
      [⟨"RP1", 101325, 0, 10, 2, 1, 0, none, none, 0, none⟩] 1 none 10)) :=
  ⟨⟨by simp, by simp, by norm_num⟩,
   (C8_mass_never_increases defaultOps
     [⟨"RP1", 101325, 0, 10, 2, 1, 0, none, none, 0, none⟩] 1 none 10
     (by simp) (by simp) (by norm_num)).1⟩

theorem engRad_nonneg (ops : TransOps) (hF : Faithful ops) (P : EngParams)
    (hk : 1 < P.k) (hR : 0 ≤ P.R) (hct : 0 ≤ P.ct) (hc : 101325 ≤ P.cocp)
    (st : EngState) : 0 ≤ engRad ops P st := by
  have hap0 : 0 ≤ pressure ops st.alt := pressure_nonneg ops st.alt
  have hap1 : pressure ops st.alt ≤ 101325 := pressure_le ops hF st.alt
  have hcp : (0 : ℚ) < P.cocp := lt_of_lt_of_le (by norm_num) hc
  have hdiv0 : 0 ≤ pressure ops st.alt / P.cocp := div_nonneg hap0 hcp.le
  have hdiv1 : pressure ops st.alt / P.cocp ≤ 1 := by
    rw [div_le_one hcp]
    linarith
  have hexp : 0 < (P.k - 1) / P.k := by
    apply div_pos <;> linarith
  have hpr1 : ops.rpow (pressure ops st.alt / P.cocp) ((P.k - 1) / P.k) ≤ 1 := by
    have := hF.rpow_mono ((P.k - 1) / P.k) (pressure ops st.alt / P.cocp) 1
      hexp hdiv0 hdiv1
    rwa [hF.rpow_one_base] at this
  simp only [engRad, hcp, if_true]
  have h2k : 0 ≤ (2 * P.k) / (P.k - 1) := by
    apply div_nonneg <;> linarith
  have := mul_nonneg (mul_nonneg (mul_nonneg h2k hR) hct)
    (by linarith : (0 : ℚ) ≤ 1 - ops.rpow (pressure ops st.alt / P.cocp)
      ((P.k - 1) / P.k))
  exact this

theorem map_range_shift (j : ℕ) (t d : ℚ) :
    (List.range (j + 1)).map (fun i : ℕ => t + (i : ℚ) * d) =
      t :: (List.range j).map (fun i : ℕ => (t + d) + (i : ℚ) * d) := by
  rw [List.range_succ_eq_map]
  simp only [List.map_cons, List.map_map, Nat.cast_zero, zero_mul, add_zero]
  congr 1
  apply List.map_congr_left
  intro i _
  simp only [Function.comp]
  push_cast
  ring

theorem engineLoop_depletes (ops : TransOps) (hF : Faithful ops)
    (P : EngParams) (hk : 1 < P.k) (hR : 0 ≤ P.R) (hct : 0 ≤ P.ct)
    (hc : 101325 ≤ P.cocp) (hq : 0 < P.mfr * P.dt) :
    ∀ (j : ℕ) (n : ℕ) (st : EngState) (acc : EngAcc), j ≤ n →
    st.propmass = (j : ℚ) * (P.mfr * P.dt) →
    ∃ (st2 : EngState) (acc2 : EngAcc),
      engineLoop ops P none false n st acc = some (.done st2 acc2 true) ∧
      st2.time = st.time + (j : ℚ) * P.dt ∧
      acc2.time = acc.time ++
        (List.range j).map (fun i : ℕ => st.time + (i : ℚ) * P.dt) := by
  intro j
  induction j with
  | zero =>
    intro n st acc _ hpm
    have hg : ¬ engGuard none st := by
      intro hgg
      have h1 : 0 < st.propmass := hgg.1
      rw [hpm] at h1
      norm_num at h1
    refine ⟨st, acc, ?_, by norm_num, by simp⟩
    cases n <;> simp [engineLoop, hg]
  | succ j ih =>
    intro n st acc hjn hpm
    have hone : (1 : ℚ) ≤ ((j : ℚ) + 1) := by
      have := Nat.cast_nonneg (α := ℚ) j
      linarith
    have hcast : ((j + 1 : ℕ) : ℚ) = (j : ℚ) + 1 := by push_cast; ring
    have hg : engGuard none st := by
      constructor
      · rw [hpm, hcast]
        nlinarith
      · trivial
    obtain ⟨n', rfl⟩ : ∃ n', n = n' + 1 := ⟨n - 1, by omega⟩
    have hrad : ¬ engRad ops P st < 0 :=
      not_lt.2 (engRad_nonneg ops hF P hk hR hct hc st)
    have hstep : engineStep ops P st = some (engAdvance ops P st) := by
      rw [engineStep, if_neg hrad]
    have hmin : min (P.mfr * P.dt) st.propmass = P.mfr * P.dt := by
      apply min_eq_left
      rw [hpm, hcast]
      nlinarith
    have hpm' : (engAdvance ops P st).1.propmass = (j : ℚ) * (P.mfr * P.dt) := by
      rw [engAdvance_fst_propmass, hmin, hpm, hcast]
      ring
    obtain ⟨st2, acc2, hloop, htime, hacc⟩ := ih n'
      (engAdvance ops P st).1 (pushAcc acc (engAdvance ops P st).2)
      (by omega) hpm'
    refine ⟨st2, acc2, ?_, ?_, ?_⟩
    · simp only [engineLoop, hg, if_true, hstep, Bool.false_eq_true,
        false_and, if_false]
      exact hloop
    · rw [htime, engAdvance_fst_time, hcast]
      ring
    · rw [hacc, engAdvance_fst_time]
      have hpush : (pushAcc acc (engAdvance ops P st).2).time =
          acc.time ++ [st.time] := by
        simp [pushAcc, engAdvance_snd_time]
      rw [hpush, List.append_assoc, map_range_shift j st.time P.dt]
      rfl

theorem chain_arith (j : ℕ) : ∀ (t d : ℚ),
    List.Chain' (fun a b => b = a + d)
      ((List.range j).map (fun i : ℕ => t + (i : ℚ) * d)) := by
  induction j with
  | zero => intro t d; simp
  | succ j ih =>
    intro t d
    rw [map_range_shift]
    refine List.Chain'.cons' (ih (t + d) d) ?_
    intro b hb
    cases j with
    | zero => simp at hb
    | succ j' =>
      rw [map_range_shift] at hb
      simp only [List.head?_cons, Option.mem_def, Option.some_inj] at hb
      rw [← hb]

/-- C3: the reference run `rocket_simulation("RP1", 7e6, 3500, 0,
10000, 8000, 250, 0.1)` terminates by propellant depletion after
exactly `320 = 8000/(250*0.1)` samples with `final_time = 32.0` and
`simulation_complete = True`, and its recorded times are strictly
increasing, spaced by exactly `0.1` (exact rational arithmetic; the
float run agrees up to rounding). -/
theorem C3_reference_run (ops : TransOps) (hF : Faithful ops) :
    ∃ r : EngData,
      engineSim ops "RP1" 7000000 3500 0 10000 8000 250 (1 / 10) 1 false none
        320 = some (.ok r) ∧
      r.time.length = 320 ∧ r.finalTime = 32 ∧ r.complete = true ∧
      List.Chain' (fun a b => b = a + 1 / 10) r.time ∧
      List.Chain' (fun a b => a < b) r.time := by
  obtain ⟨st2, acc2, hloop, htime, hacc⟩ := engineLoop_depletes ops hF
    ⟨6 / 5, 287, 7000000, 3500, 250, 1 / 10, 1⟩ (by norm_num) (by norm_num)
    (by norm_num) (by norm_num) (by norm_num) 320 320
    ⟨8000, 10000, 0, 0, 0, 0, 0⟩ emptyAcc le_rfl (by push_cast; norm_num)
  have hfp : fuelProps "RP1" = some (6 / 5, 287) := by simp [fuelProps]
  have htime0 : (⟨8000, 10000, 0, 0, 0, 0, 0⟩ : EngState).time = 0 := rfl
  refine ⟨mkEngData st2 acc2 true, ?_, ?_, ?_, rfl, ?_, ?_⟩
  · unfold engineSim
    rw [hfp]
    simp only
    rw [hloop]
    rfl
  · show acc2.time.length = 320
    rw [hacc]
    simp [emptyAcc]
  · show st2.time = 32
    rw [htime, htime0]
    push_cast
    norm_num
  · show List.Chain' (fun a b => b = a + 1 / 10) acc2.time
    rw [hacc, htime0]
    simp only [emptyAcc, List.nil_append]
    exact chain_arith 320 0 (1 / 10)
  · show List.Chain' (fun a b => a < b) acc2.time
    rw [hacc, htime0]
    simp only [emptyAcc, List.nil_append]
    refine List.Chain'.imp ?_ (chain_arith 320 0 (1 / 10))
    intro a b h
    rw [h]
    have : (0 : ℚ) < 1 / 10 := by norm_num
    linarith

theorem C3_reference_run_witness :
    Faithful defaultOps ∧
    (∃ r : EngData,
      engineSim defaultOps "RP1" 7000000 3500 0 10000 8000 250 (1 / 10) 1
        false none 320 = some (.ok r) ∧
      r.time.length = 320 ∧ r.finalTime = 32 ∧ r.complete = true ∧
      List.Chain' (fun a b => b = a + 1 / 10) r.time ∧
      List.Chain' (fun a b => a < b) r.time) :=
  ⟨faithful_defaultOps, C3_reference_run defaultOps faithful_defaultOps⟩

/-- `l₁` is an initial segment of `l₂`. -/
def isInit (l₁ l₂ : List ℚ) : Prop := ∃ t, l₁ ++ t = l₂

theorem isInit_refl (l : List ℚ) : isInit l l := ⟨[], List.append_nil l⟩

theorem isInit_trans {l₁ l₂ l₃ : List ℚ} (h₁ : isInit l₁ l₂)
    (h₂ : isInit l₂ l₃) : isInit l₁ l₃ := by
  obtain ⟨t₁, rfl⟩ := h₁
  obtain ⟨t₂, rfl⟩ := h₂
  exact ⟨t₁ ++ t₂, (List.append_assoc _ _ _).symm⟩

theorem isInit_append (l t : List ℚ) : isInit l (l ++ t) := ⟨t, rfl⟩

/-- `a`'s ten sample arrays are initial segments of `b`'s. -/
def accExt (a b : EngAcc) : Prop :=
  isInit a.time b.time ∧ isInit a.thrust b.thrust ∧ isInit a.fuel b.fuel ∧
  isInit a.massFlow b.massFlow ∧ isInit a.vel b.vel ∧ isInit a.alt b.alt ∧
  isInit a.isp b.isp ∧ isInit a.energy b.energy ∧ isInit a.drag b.drag ∧
  isInit a.accel b.accel

theorem accExt_refl (a : EngAcc) : accExt a a :=
  ⟨isInit_refl _, isInit_refl _, isInit_refl _, isInit_refl _, isInit_refl _,
   isInit_refl _, isInit_refl _, isInit_refl _, isInit_refl _, isInit_refl _⟩

theorem accExt_push (a : EngAcc) (s : EngSample) : accExt a (pushAcc a s) :=
  ⟨isInit_append .., isInit_append .., isInit_append .., isInit_append ..,
   isInit_append .., isInit_append .., isInit_append .., isInit_append ..,
   isInit_append .., isInit_append ..⟩

theorem accExt_trans {a b c : EngAcc} (h₁ : accExt a b) (h₂ : accExt b c) :
    accExt a c :=
  ⟨isInit_trans h₁.1 h₂.1, isInit_trans h₁.2.1 h₂.2.1,
   isInit_trans h₁.2.2.1 h₂.2.2.1, isInit_trans h₁.2.2.2.1 h₂.2.2.2.1,
   isInit_trans h₁.2.2.2.2.1 h₂.2.2.2.2.1,
   isInit_trans h₁.2.2.2.2.2.1 h₂.2.2.2.2.2.1,
   isInit_trans h₁.2.2.2.2.2.2.1 h₂.2.2.2.2.2.2.1,
   isInit_trans h₁.2.2.2.2.2.2.2.1 h₂.2.2.2.2.2.2.2.1,
   isInit_trans h₁.2.2.2.2.2.2.2.2.1 h₂.2.2.2.2.2.2.2.2.1,
   isInit_trans h₁.2.2.2.2.2.2.2.2.2 h₂.2.2.2.2.2.2.2.2.2⟩

/-- Whatever the loop returns extends the accumulator it started from. -/
theorem engineLoop_acc_ext (ops : TransOps) (P : EngParams) (mt : Option ℚ)
    (rt : Bool) : ∀ (n : ℕ) (st : EngState) (acc : EngAcc) (st2 : EngState)
    (acc2 : EngAcc) (c : Bool),
    engineLoop ops P mt rt n st acc = some (.done st2 acc2 c) →
    accExt acc acc2 := by
  intro n
  induction n with
  | zero =>
    intro st acc st2 acc2 c hl
    by_cases hg : engGuard mt st
    · simp [engineLoop, hg] at hl
    · simp only [engineLoop, hg, if_false, Option.some_inj] at hl
      cases hl
      exact accExt_refl acc
  | succ n ih =>
    intro st acc st2 acc2 c hl
    by_cases hg : engGuard mt st
    · simp only [engineLoop, hg, if_true] at hl
      cases hstep : engineStep ops P st with
      | none => rw [hstep] at hl; simp at hl
      | some p =>
        rw [hstep] at hl
        simp only at hl
        by_cases hrt : rt = true ∧ (1 / 4 : ℚ) ≤ p.1.time - p.1.lastReturn
        · simp only [hrt, if_true, Option.some_inj] at hl
          cases hl
          exact accExt_push acc p.2
        · simp only [hrt, if_false] at hl
          exact accExt_trans (accExt_push acc p.2) (ih p.1 _ st2 acc2 c hl)
    · simp only [engineLoop, hg, if_false, Option.some_inj] at hl
      cases hl
      exact accExt_refl acc

theorem engineStep_eq_advance (ops : TransOps) (P : EngParams)
    (st : EngState) (p : EngState × EngSample)
    (h : engineStep ops P st = some p) : p = engAdvance ops P st := by
  by_cases hrad : engRad ops P st < 0
  · simp [engineStep, hrad] at h
  · rw [engineStep, if_neg hrad] at h
    exact (Option.some_injective _ h).symm

/-- Core of the streaming-mode refinement: if the non-real-time loop
finishes (from a state that has not yet crossed the 0.25 s return
interval) with final time past 0.25 s, then the real-time loop from the
same state returns a partial (`complete = false`) result whose arrays
are initial segments of the full run's. -/
theorem engineLoop_rt_prefix (ops : TransOps) (P : EngParams)
    (mt : Option ℚ) : ∀ (n : ℕ) (st : EngState)
    (acc : EngAcc) (st2 : EngState) (acc2 : EngAcc) (c : Bool),
    st.lastReturn = 0 → st.time < 1 / 4 →
    engineLoop ops P mt false n st acc = some (.done st2 acc2 c) →
    1 / 4 < st2.time →
    ∃ (st3 : EngState) (acc3 : EngAcc),
      engineLoop ops P mt true n st acc = some (.done st3 acc3 false) ∧
      accExt acc3 acc2 := by
  intro n
  induction n with
  | zero =>
    intro st acc st2 acc2 c hlr htlt hl htgt
    by_cases hg : engGuard mt st
    · simp [engineLoop, hg] at hl
    · simp only [engineLoop, hg, if_false, Option.some_inj] at hl
      cases hl
      exact absurd htgt (by linarith)
  | succ n ih =>
    intro st acc st2 acc2 c hlr htlt hl htgt
    by_cases hg : engGuard mt st
    · simp only [engineLoop, hg, if_true] at hl ⊢
      cases hstep : engineStep ops P st with
      | none => rw [hstep] at hl; simp at hl
      | some p =>
        rw [hstep] at hl
        simp only at hl ⊢
        have hp := engineStep_eq_advance ops P st p hstep
        have hplr : p.1.lastReturn = 0 := by
          rw [hp, engAdvance_fst_lastReturn, hlr]
        have hpt : p.1.time = st.time + P.dt := by
          rw [hp, engAdvance_fst_time]
        simp only [Bool.false_eq_true, false_and, if_false] at hl
        by_cases hcross : (1 / 4 : ℚ) ≤ p.1.time - p.1.lastReturn
        · have hext := engineLoop_acc_ext ops P mt false n p.1
            (pushAcc acc p.2) st2 acc2 c hl
          refine ⟨{ p.1 with lastReturn := p.1.time }, pushAcc acc p.2,
            ?_, hext⟩
          simp only [true_and, hcross, if_true]
        · have hrec := ih p.1 (pushAcc acc p.2) st2 acc2 c hplr
            (by rw [hplr] at hcross; push_neg at hcross; linarith) hl htgt
          obtain ⟨st3, acc3, hl3, hext3⟩ := hrec
          refine ⟨st3, acc3, ?_, hext3⟩
          simp only [true_and, hcross, if_false]
          exact hl3
    · simp only [engineLoop, hg, if_false, Option.some_inj] at hl
      cases hl
      exact absurd htgt (by linarith)

/-- C9: for any run whose full simulated time exceeds 0.25 s, the
real-time-mode call returns a partial result flagged
`simulation_complete = False` whose ten per-sample arrays are exactly
initial segments of the ten arrays of the identical non-real-time call:
streaming changes the delivery granularity, not the physics. -/
theorem C9_realtime_prefix (ops : TransOps) (fuelType : String)
    (cocp ct altitude intmass propmass mfr dt referenceArea : ℚ)
    (mt : Option ℚ) (n : ℕ) (r : EngData) (_hdt : 0 < dt)
    (hfull : engineSim ops fuelType cocp ct altitude intmass propmass mfr dt
      referenceArea false mt n = some (.ok r))
    (htime : 1 / 4 < r.finalTime) :
    ∃ rp : EngData,
      engineSim ops fuelType cocp ct altitude intmass propmass mfr dt
        referenceArea true mt n = some (.ok rp) ∧
      rp.complete = false ∧
      isInit rp.time r.time ∧ isInit rp.thrust r.thrust ∧
      isInit rp.fuel r.fuel ∧ isInit rp.massFlow r.massFlow ∧
      isInit rp.vel r.vel ∧ isInit rp.alt r.alt ∧ isInit rp.isp r.isp ∧
      isInit rp.energy r.energy ∧ isInit rp.drag r.drag ∧
      isInit rp.accel r.accel := by
  unfold engineSim at hfull ⊢
  cases hfp : fuelProps fuelType with
  | none =>
    rw [hfp] at hfull
    simp at hfull
  | some kR =>
    rw [hfp] at hfull
    simp only at hfull ⊢
    cases hl : engineLoop ops ⟨kR.1, kR.2, cocp, ct, mfr, dt,
        referenceArea⟩ mt false n
        ⟨propmass, intmass, 0, 0, altitude, 0, 0⟩ emptyAcc with
    | none => rw [hl] at hfull; simp at hfull
    | some out =>
      rw [hl] at hfull
      cases out with
      | sqrtErr => simp at hfull
      | done st2 acc2 c =>
        simp only [Option.map_some', Option.some_inj] at hfull
        have hr : r = mkEngData st2 acc2 c := by
          cases hfull
          rfl
        have ht2 : (1 : ℚ) / 4 < st2.time := by
          rw [hr] at htime
          exact htime
        obtain ⟨st3, acc3, hl3, hext⟩ := engineLoop_rt_prefix ops
          ⟨kR.1, kR.2, cocp, ct, mfr, dt, referenceArea⟩ mt n
          ⟨propmass, intmass, 0, 0, altitude, 0, 0⟩ emptyAcc st2 acc2 c
          rfl (by norm_num) hl ht2
        refine ⟨mkEngData st3 acc3 false, ?_, rfl, ?_⟩
        · rw [hl3]
          rfl
        · rw [hr]
          exact hext

/-- The full (non-real-time) reference run used in the C9 witness:
`RP1`, `Pc = 101325`, `Tc = 0`, two 1-second steps with zero reference
area, evaluated exactly. -/
def c9FullData : EngData :=
  ⟨[0, 1], [0, 0], [1, 0], [1, 1], [0, -981 / 100], [0, -981 / 200],
   [0, 0], [0, 0], [0, 0], [-981 / 100, -981 / 100], 2, 0, 0, true⟩

set_option maxHeartbeats 1000000 in
theorem c9_full_run :
    engineSim defaultOps "RP1" 101325 0 0 10 2 1 1 0 false none 5 =
      some (.ok c9FullData) := by
  norm_num [engineSim, fuelProps, engineLoop, engineStep, engGuard, engRad,
    engAdvance, pressure, calculateDrag, defaultOps, pushAcc, emptyAcc,
    mkEngData, c9FullData]

theorem C9_realtime_prefix_witness :
    ((0 : ℚ) < 1 ∧
     engineSim defaultOps "RP1" 101325 0 0 10 2 1 1 0 false none 5 =
       some (.ok c9FullData) ∧
     (1 : ℚ) / 4 < c9FullData.finalTime) ∧
    (∃ rp : EngData,
      engineSim defaultOps "RP1" 101325 0 0 10 2 1 1 0 true none 5 =
        some (.ok rp) ∧
      rp.complete = false ∧
      isInit rp.time c9FullData.time ∧ isInit rp.thrust c9FullData.thrust ∧
      isInit rp.fuel c9FullData.fuel ∧
      isInit rp.massFlow c9FullData.massFlow ∧
      isInit rp.vel c9FullData.vel ∧ isInit rp.alt c9FullData.alt ∧
      isInit rp.isp c9FullData.isp ∧ isInit rp.energy c9FullData.energy ∧
      isInit rp.drag c9FullData.drag ∧ isInit rp.accel c9FullData.accel) :=
  ⟨⟨by norm_num, c9_full_run, by norm_num [c9FullData]⟩,
   C9_realtime_prefix defaultOps "RP1" 101325 0 0 10 2 1 1 0 none 5
     c9FullData (by norm_num) c9_full_run (by norm_num [c9FullData])⟩
